import Mathlib

/-!
Verification development for the dashboard_system repository.

Shallow embedding of the data-cleaning pipeline (src/utils/data_cleaner.py),
the chart engine (src/utils/kpi_engine.py), the live-server port loop
(src/exports/live_server.py) and the file reader (src/utils/file_handler.py).

A pandas DataFrame is modelled as a list of column names, a parallel list of
dtypes, and a list of rows (each row a list of cell values).  Cell values are
integers, rationals (standing for the numeric value carried by a float cell;
float rounding is not modelled), strings, or null (NaN/None).  Fallible
operations return Except/Option.
-/

namespace Dashboard

/-- Cell value of a dataframe.  `vNull` models NaN/None missing values. -/
inductive Value where
  | vInt (i : Int)
  | vFloat (q : ℚ)
  | vStr (s : String)
  | vNull
  deriving DecidableEq, Repr

/-- The pandas dtypes the repository's code branches on. -/
inductive DType where
  | int64 | int32 | int16 | int8
  | float64 | float32 | float16
  | object | category | other
  deriving DecidableEq, Repr

/-- Dtypes selected by select_dtypes(include=[np.number]). -/
def DType.isNumeric : DType → Bool
  | .int64 | .int32 | .int16 | .int8 => true
  | .float64 | .float32 | .float16 => true
  | _ => false

/-- Model of a pandas DataFrame: named, typed columns over a list of rows. -/
structure Frame where
  cols : List String
  dtypes : List DType
  rows : List (List Value)
  deriving DecidableEq, Repr

/-- pandas DataFrame.empty: true when any axis has length 0. -/
def Frame.empty (df : Frame) : Bool :=
  df.rows.isEmpty || df.cols.isEmpty

/-- The numeric content of a cell, when it has one (NaN/strings have none). -/
def Value.toQ : Value → Option ℚ
  | .vInt i => some (i : ℚ)
  | .vFloat q => some q
  | _ => none

/-- Cell at column index `i` of a row (null when out of range). -/
def cellAt (r : List Value) (i : Nat) : Value := r.getD i .vNull

/-- The values of column `i`, top to bottom. -/
def Frame.colValues (df : Frame) (i : Nat) : List Value :=
  df.rows.map (fun r => cellAt r i)

/-- Dtype of column `i` (defaults to object when out of range). -/
def Frame.dtypeAt (df : Frame) (i : Nat) : DType := df.dtypes.getD i .object

/-- Keep the first occurrence of each element, dropping every later
duplicate (pandas drop_duplicates keep default; also pandas unique order).
`seen` accumulates the elements already emitted. -/
def dedupFirstAux {α : Type} [DecidableEq α] (seen : List α) : List α → List α
  | [] => []
  | x :: xs =>
      if x ∈ seen then dedupFirstAux seen xs
      else x :: dedupFirstAux (x :: seen) xs

def dedupFirst {α : Type} [DecidableEq α] (l : List α) : List α :=
  dedupFirstAux [] l

/-! ## Column-name normalization (DataCleaner._clean_column_names)

`col.strip().lower().replace(' ', '_').replace('-', '_')`, modelled on the
character list of the name.  str.strip removes leading and trailing
whitespace; str.lower is modelled on ASCII letters. -/

def isPyWhitespace (c : Char) : Bool :=
  c = ' ' || c = '\t' || c = '\n' || c = '\x0d' || c = '\x0b' || c = '\x0c'

def toLowerAscii (c : Char) : Char :=
  if 'A' ≤ c ∧ c ≤ 'Z' then Char.ofNat (c.toNat + 32) else c

/-- .replace(' ', '_').replace('-', '_') on a single character. -/
def underscoreRepl (c : Char) : Char :=
  if c = ' ' then '_' else if c = '-' then '_' else c

/-- str.strip(): drop leading and trailing whitespace. -/
def stripWs (l : List Char) : List Char :=
  (l.dropWhile isPyWhitespace).rdropWhile isPyWhitespace

/-- The single-character transformation of _clean_column_names: lower-case,
then the two underscore replacements. -/
def normChar (c : Char) : Char := underscoreRepl (toLowerAscii c)

/-- The per-name normalization done by _clean_column_names. -/
def normalizeChars (l : List Char) : List Char :=
  (stripWs l).map normChar

def normalizeName (s : String) : String := String.mk (normalizeChars s.data)

/-- DataCleaner._clean_column_names: rename every column. -/
def cleanColumnNames (df : Frame) : Frame :=
  { df with cols := df.cols.map normalizeName }

/-! ## Duplicate removal (DataCleaner._handle_duplicates) -/

def handleDuplicates (df : Frame) : Frame :=
  { df with rows := dedupFirst df.rows }

/-! ## Missing-value handling (DataCleaner._handle_missing_values) -/

/-- Number of nulls in a column. -/
def countNulls (vals : List Value) : Nat :=
  (vals.filter (fun v => v = .vNull)).length

/-- Insertion into a sorted list of rationals. -/
def insertSorted (x : ℚ) : List ℚ → List ℚ
  | [] => [x]
  | y :: ys => if x ≤ y then x :: y :: ys else y :: insertSorted x ys

/-- Ascending insertion sort. -/
def sortQ (l : List ℚ) : List ℚ := l.foldr insertSorted []

/-- pandas Series.median over the non-null values: middle element of the
sorted list, or the average of the two middle elements; NaN (none) when no
non-null value exists. -/
def medianQ (vals : List Value) : Option ℚ :=
  let nn := vals.filterMap Value.toQ
  let s := sortQ nn
  let n := s.length
  if n = 0 then none
  else if n % 2 = 1 then some (s.getD (n / 2) 0)
  else some ((s.getD (n / 2 - 1) 0 + s.getD (n / 2) 0) / 2)

/-- Count occurrences of a value in a list. -/
def countOcc (vals : List Value) (x : Value) : Nat :=
  (vals.filter (fun v => v = x)).length

/-- pandas Series.mode()[0] over the non-null values: a value of maximal
multiplicity (first occurrence wins ties in this model; pandas orders ties
by sorting, which the claims do not depend on).  none when every value is
null. -/
def modeVal (vals : List Value) : Option Value :=
  let nn := vals.filter (fun v => v ≠ .vNull)
  nn.foldl (fun best v =>
    match best with
    | none => some v
    | some b => if countOcc nn v > countOcc nn b then some v else some b) none

/-- Forward fill: replace each null by the closest preceding non-null value;
leading nulls stay null. -/
def ffill (vals : List Value) : List Value :=
  (vals.foldl (fun (acc : List Value × Value) v =>
    match v with
    | .vNull => (acc.1 ++ [acc.2], acc.2)
    | w => (acc.1 ++ [w], w)) ([], .vNull)).1

/-- Replace column `i` of every row by the corresponding entry of `newCol`. -/
def setColumn (df : Frame) (i : Nat) (newCol : List Value) : Frame :=
  { df with rows := (df.rows.zip newCol).map (fun p => p.1.set i p.2) }

/-- The filled version of column `i`, per the dtype branch of
_handle_missing_values. -/
def fillColumnVals (dt : DType) (vals : List Value) : List Value :=
  match dt with
  | .int64 | .float64 =>
      match medianQ vals with
      | some m => vals.map (fun v => if v = .vNull then .vFloat m else v)
      | none => vals
  | .object =>
      match modeVal vals with
      | some m => vals.map (fun v => if v = .vNull then m else v)
      | none => vals.map (fun v => if v = .vNull then .vStr "Unknown" else v)
  | _ => ffill vals

/-- One iteration of the `for col in missing_cols.index` loop. -/
def fillColumnStep (df : Frame) (i : Nat) : Frame :=
  setColumn df i (fillColumnVals (df.dtypeAt i) (df.colValues i))

/-- Column indices with at least one missing value (missing_counts > 0). -/
def missingIdx (df : Frame) : List Nat :=
  (List.range df.cols.length).filter (fun i => countNulls (df.colValues i) > 0)

/-- DataCleaner._handle_missing_values. -/
def handleMissingValues (df : Frame) : Frame :=
  (missingIdx df).foldl fillColumnStep df

/-! ## Type optimization (DataCleaner._optimize_data_types) -/

/-- np.astype to a signed width: two's-complement wrap-around. -/
def wrapInt (w : Nat) (i : Int) : Int :=
  (i + 2 ^ (w - 1)) % 2 ^ w - 2 ^ (w - 1)

/-- astype on a cell for an integer target width. -/
def astypeIntVal (w : Nat) : Value → Value
  | .vInt i => .vInt (wrapInt w i)
  | v => v

/-- Width in bits of a signed integer dtype tier. -/
def intWidth : DType → Nat
  | .int8 => 8
  | .int16 => 16
  | .int32 => 32
  | _ => 64

/-- Minimum and maximum over the numeric contents of a column; none when the
column has no numeric value (pandas min/max give NaN there and every
downcast guard is then false). -/
def colMinMax (vals : List Value) : Option (ℚ × ℚ) :=
  match vals.filterMap Value.toQ with
  | [] => none
  | q :: qs => some (qs.foldl min q, qs.foldl max q)

/-- np.finfo(np.float16).max as an exact rational. -/
def f16max : ℚ := 65504

/-- np.finfo(np.float32).max as an exact rational: 2^128 − 2^104. -/
def f32max : ℚ := 2 ^ 128 - 2 ^ 104

/-- The int64 branch of _optimize_data_types: pick the downcast tier by the
code's strict comparisons against np.iinfo bounds. -/
def int64Tier (cmin cmax : ℚ) : DType :=
  if cmin > -(2 ^ 7 : ℚ) ∧ cmax < (2 ^ 7 - 1 : ℚ) then .int8
  else if cmin > -(2 ^ 15 : ℚ) ∧ cmax < (2 ^ 15 - 1 : ℚ) then .int16
  else if cmin > -(2 ^ 31 : ℚ) ∧ cmax < (2 ^ 31 - 1 : ℚ) then .int32
  else .int64

/-- The float64 branch: np.finfo comparisons, again strict. -/
def float64Tier (cmin cmax : ℚ) : DType :=
  if cmin > -f16max ∧ cmax < f16max then .float16
  else if cmin > -f32max ∧ cmax < f32max then .float32
  else .float64

/-- Set the dtype label of column `i`. -/
def setDtype (df : Frame) (i : Nat) (dt : DType) : Frame :=
  { df with dtypes := df.dtypes.set i dt }

/-- One iteration of the numeric loop of _optimize_data_types on column `i`.
Integer downcasts store values at the narrower width (wrap-around astype);
float downcasts are modelled as relabelling only, since float rounding is
outside this embedding. -/
def optimizeNumericStep (df : Frame) (i : Nat) : Frame :=
  match df.dtypeAt i with
  | .int64 =>
      match colMinMax (df.colValues i) with
      | none => df
      | some (cmin, cmax) =>
          let t := int64Tier cmin cmax
          if t = .int64 then df
          else setDtype (setColumn df i ((df.colValues i).map (astypeIntVal (intWidth t)))) i t
  | .float64 =>
      match colMinMax (df.colValues i) with
      | none => df
      | some (cmin, cmax) =>
          let t := float64Tier cmin cmax
          if t = .float64 then df else setDtype df i t
  | _ => df

/-- One iteration of the object loop: convert to category when distinct/total
ratio is below 0.5. -/
def optimizeObjectStep (df : Frame) (i : Nat) : Frame :=
  if df.dtypeAt i = .object then
    let vals := df.colValues i
    let u := (dedupFirst vals).length
    if 2 * u < vals.length then setDtype df i .category else df
  else df

/-- DataCleaner._optimize_data_types: the numeric pass then the object pass,
each over the columns selected by dtype before its loop starts. -/
def optimizeDataTypes (df : Frame) : Frame :=
  let numSel := (List.range df.cols.length).filter
    (fun i => df.dtypeAt i = .int64 || df.dtypeAt i = .float64)
  let df1 := numSel.foldl optimizeNumericStep df
  let objSel := (List.range df1.cols.length).filter (fun i => df1.dtypeAt i = .object)
  objSel.foldl optimizeObjectStep df1

/-! ## Outlier handling (DataCleaner._handle_outliers) -/

/-- pandas Series.quantile with linear interpolation over the non-null
values; none models the NaN result on an all-null column. -/
def quantileQ (vals : List Value) (q : ℚ) : Option ℚ :=
  let s := sortQ (vals.filterMap Value.toQ)
  match s with
  | [] => none
  | _ =>
      let n := s.length
      let pos : ℚ := q * ((n : ℚ) - 1)
      let i : Nat := pos.floor.toNat
      let frac : ℚ := pos - (i : ℚ)
      let vi := s.getD i 0
      let vi1 := s.getD (i + 1) vi
      some (vi + frac * (vi1 - vi))

/-- The IQR bounds [Q1 − k·IQR, Q3 + k·IQR] of a column state. -/
def iqrBounds (vals : List Value) (threshold : ℚ) : Option (ℚ × ℚ) :=
  match quantileQ vals (1 / 4), quantileQ vals (3 / 4) with
  | some q1, some q3 =>
      let iqr := q3 - q1
      some (q1 - threshold * iqr, q3 + threshold * iqr)
  | _, _ => none

/-- The IQR outlier mask on one cell: NaN (null/non-numeric) compares false
on both sides, so it is never flagged. -/
def iqrMask (lb ub : ℚ) (v : Value) : Bool :=
  match v.toQ with
  | some q => q < lb || q > ub
  | none => false

/-- One column of the method == iqr loop: compute quantiles of the current
(possibly already shrunk) table, flag strict out-of-bound cells, and filter
the table when any cell is flagged. -/
def iqrStep (threshold : ℚ) (df : Frame) (i : Nat) : Frame :=
  match iqrBounds (df.colValues i) threshold with
  | none => df
  | some (lb, ub) =>
      let mask := fun (r : List Value) => iqrMask lb ub (cellAt r i)
      if (df.rows.filter mask).length > 0 then
        { df with rows := df.rows.filter (fun r => ¬ mask r) }
      else df

/-- Population-to-sample variance of the non-null values (ddof = 1); none
when fewer than two values (pandas std gives NaN).  Used to express the
z-score comparison |v − mean| / std > t squared, avoiding the square root. -/
def sampleVar (vals : List Value) : Option (ℚ × ℚ) :=
  let nn := vals.filterMap Value.toQ
  let n := nn.length
  if n ≤ 1 then none
  else
    let mean := nn.sum / (n : ℚ)
    some (mean, (nn.map (fun v => (v - mean) ^ 2)).sum / ((n : ℚ) - 1))

/-- One column of the method == zscore loop; the test
|v − mean|/std > t is rendered as (v − mean)^2 > t^2·var (equivalent for
the non-negative thresholds the code is called with). -/
def zscoreStep (threshold : ℚ) (df : Frame) (i : Nat) : Frame :=
  match sampleVar (df.colValues i) with
  | none => df
  | some (mean, v) =>
      let mask := fun (r : List Value) =>
        match (cellAt r i).toQ with
        | some q => (q - mean) ^ 2 > threshold ^ 2 * v
        | none => false
      if (df.rows.filter mask).length > 0 then
        { df with rows := df.rows.filter (fun r => ¬ mask r) }
      else df

/-- Outlier method selector. -/
inductive OutlierMethod where
  | iqr | zscore | otherMethod
  deriving DecidableEq, Repr

/-- Column indices of the numeric columns (select_dtypes(include=[np.number])). -/
def numericIdx (df : Frame) : List Nat :=
  (List.range df.cols.length).filter (fun i => (df.dtypeAt i).isNumeric)

/-- The trace of the iqr loop: each numeric column index paired with the
table state at the moment its test ran. -/
def iqrScan (t : ℚ) : Frame → List Nat → List (Nat × Frame)
  | _, [] => []
  | d, i :: rest => (i, d) :: iqrScan t (iqrStep t d i) rest

/-- DataCleaner._handle_outliers: loop over the numeric columns, shrinking
the table cumulatively. -/
def handleOutliers (df : Frame) (method : OutlierMethod) (threshold : ℚ) : Frame :=
  match method with
  | .iqr => (numericIdx df).foldl (iqrStep threshold) df
  | .zscore => (numericIdx df).foldl (zscoreStep threshold) df
  | .otherMethod => df

/-! ## clean_data (DataCleaner.clean_data) -/

/-- The boolean toggles and outlier options of clean_data. -/
structure CleanConfig where
  clean_columns : Bool := true
  handle_duplicates : Bool := true
  handle_missing : Bool := true
  optimize_types : Bool := true
  remove_outliers : Bool := false
  outlier_method : OutlierMethod := .iqr
  outlier_threshold : ℚ := 3 / 2

/-- The successive states of the clean_data pipeline, one per enabled
step, spelled out for reasoning about the composition. -/
def stage1 (df : Frame) (cfg : CleanConfig) : Frame :=
  if cfg.clean_columns then cleanColumnNames df else df

def stage2 (df : Frame) (cfg : CleanConfig) : Frame :=
  if cfg.handle_duplicates then handleDuplicates (stage1 df cfg) else stage1 df cfg

def stage3 (df : Frame) (cfg : CleanConfig) : Frame :=
  if cfg.handle_missing then handleMissingValues (stage2 df cfg) else stage2 df cfg

def stage4 (df : Frame) (cfg : CleanConfig) : Frame :=
  if cfg.optimize_types then optimizeDataTypes (stage3 df cfg) else stage3 df cfg

def stage5 (df : Frame) (cfg : CleanConfig) : Frame :=
  if cfg.remove_outliers then
    handleOutliers (stage4 df cfg) cfg.outlier_method cfg.outlier_threshold
  else stage4 df cfg

/-- DataCleaner.clean_data: empty-input guard, then the enabled steps in
fixed order on a copy of the input. -/
def cleanData (df : Frame) (cfg : CleanConfig) : Except String Frame :=
  if df.empty then .error "DataFrame is empty. No data to clean."
  else
    let d0 := df
    let d1 := if cfg.clean_columns then cleanColumnNames d0 else d0
    let d2 := if cfg.handle_duplicates then handleDuplicates d1 else d1
    let d3 := if cfg.handle_missing then handleMissingValues d2 else d2
    let d4 := if cfg.optimize_types then optimizeDataTypes d3 else d3
    let d5 := if cfg.remove_outliers then
        handleOutliers d4 cfg.outlier_method cfg.outlier_threshold
      else d4
    .ok d5

/-! ## Chart engine (src/utils/kpi_engine.py)

Figures are modelled by the data handed to the plotly constructor (the
dataframe and the x/y/color column names), the title, the annotation texts,
the legend switch and a list of traces carrying their colors.  Rendering
internals of plotly are outside the embedding. -/

/-- clean_select: turns the sentinel string None into a missing value. -/
def cleanSelect : Option String → Option String
  | some s => if s = "None" then none else some s
  | none => none

/-- A plotly trace abstracted to the color slots _apply_color_mode touches. -/
structure Trace where
  markerColor : Option String
  lineColor : Option String
  deriving DecidableEq, Repr

/-- A plotly figure abstracted to what the repository constructs and reads. -/
structure Fig where
  data : Option Frame
  xCol : Option String
  yCol : Option String
  sizeCol : Option String
  colorCol : Option String
  title : String
  annotations : List String
  showLegend : Bool
  traces : List Trace
  deriving DecidableEq, Repr

/-- A go.Figure() fresh figure (legend defaults to shown). -/
def emptyFig : Fig :=
  { data := none, xCol := none, yCol := none, sizeCol := none, colorCol := none,
    title := "", annotations := [], showLegend := true, traces := [] }

/-- A px-constructed figure over a dataframe; px creates its traces with
colors still unset. -/
def pxFig (df : Frame) (x y color : Option String) (title : String) : Fig :=
  { data := some df, xCol := x, yCol := y, sizeCol := none, colorCol := color,
    title := title, annotations := [], showLegend := true,
    traces := [{ markerColor := none, lineColor := none }] }

/-- Index of a named column. -/
def Frame.colIdx (df : Frame) (name : String) : Option Nat :=
  df.cols.findIdx? (fun c => c = name)

/-- Values of a named column. -/
def Frame.colByName (df : Frame) (name : String) : Option (List Value) :=
  (df.colIdx name).map df.colValues

/-- The KPIEngine state: the dataframe and the color policy. -/
structure KPIEngine where
  df : Frame
  color_mode : String := "randomized"
  plain_color : String := "#1f77b4"

/-- get_numeric_columns: names of the numeric-dtype columns. -/
def numericColNames (df : Frame) : List String :=
  ((List.range df.cols.length).filter (fun i => (df.dtypeAt i).isNumeric)).map
    (fun i => df.cols.getD i "")

/-- The literal 3.4e38 threshold of the float16 widening checks. -/
def q34e38 : ℚ := 34 * 10 ^ 37

/-- The float16 pre-aggregation widening block: when the column dtype is
float16, relabel it float64 if its extremes exceed ±3.4e38, else float32
(values are untouched; an absent or all-NaN column compares false). -/
def widenF16 (df : Frame) (name : String) : Frame :=
  match df.colIdx name with
  | none => df
  | some i =>
      if df.dtypeAt i = .float16 then
        let wide :=
          match colMinMax (df.colValues i) with
          | some (cmin, cmax) => cmax > q34e38 || cmin < -q34e38
          | none => false
        setDtype df i (if wide then .float64 else .float32)
      else df

/-- groupby(group_by)[kpi].agg(sum, mean, count) with renamed columns
[group_by, kpi_sum, kpi_mean, kpi_count]; one row per observed non-null
group key (groupby drops NaN keys); count and mean range over the non-null
kpi cells of the group, mean is NaN when that count is 0. -/
def groupAgg (df : Frame) (gIdx kIdx : Nat) (g kpi : String) : Frame :=
  let keys := dedupFirst ((df.colValues gIdx).filter (fun v => v ≠ .vNull))
  let rowsOf := fun (v : Value) => df.rows.filter (fun r => cellAt r gIdx = v)
  { cols := [g, kpi ++ "_sum", kpi ++ "_mean", kpi ++ "_count"],
    dtypes := [df.dtypeAt gIdx, .float64, .float64, .int64],
    rows := keys.map (fun v =>
      let kvals := (rowsOf v).filterMap (fun r => (cellAt r kIdx).toQ)
      let s := kvals.sum
      let n := kvals.length
      [v, .vFloat s, if n = 0 then .vNull else .vFloat (s / (n : ℚ)), .vInt (n : Int)]) }

/-- reset_index on a default range index: a fresh integer column named
index is prepended. -/
def resetIndex (df : Frame) : Frame :=
  { cols := "index" :: df.cols,
    dtypes := .int64 :: df.dtypes,
    rows := df.rows.enum.map (fun p => .vInt (p.1 : Int) :: p.2) }

/-- KPIEngine._create_standard_chart.  Errors model the pandas/plotly
KeyErrors on absent columns. -/
def createStandardChart (eng : KPIEngine) (kpi chart_type : String)
    (group_by color_by secondary_kpi : Option String) : Except String Fig :=
  let gOpt := cleanSelect group_by
  let cOpt := cleanSelect color_by
  match gOpt with
  | some g =>
      match (eng.df).colIdx kpi with
      | none => .error ("KeyError: " ++ kpi)
      | some _ =>
          let dfw := widenF16 eng.df kpi
          match dfw.colIdx g with
          | none => .error ("KeyError: " ++ g)
          | some _ =>
              let dfw2 := widenF16 dfw g
              match dfw2.colIdx g, dfw2.colIdx kpi with
              | some gIdx, some kIdx =>
                  let grouped := groupAgg dfw2 gIdx kIdx g kpi
                  if chart_type = "Bar" ∨ chart_type = "Line" ∨ chart_type = "Area" then
                    .ok (pxFig grouped (some g) (some (kpi ++ "_mean")) cOpt
                      (kpi ++ " by " ++ g))
                  else
                    .ok (pxFig eng.df (some kpi)
                      (some (secondary_kpi.getD kpi)) cOpt
                      (match secondary_kpi with
                       | some s => kpi ++ " vs " ++ s
                       | none => kpi ++ " Scatter"))
              | _, _ => .error "KeyError"
  | none =>
      let grouped := resetIndex eng.df
      let x := grouped.cols.getD 0 ""
      if chart_type = "Bar" ∨ chart_type = "Line" ∨ chart_type = "Area" then
        .ok (pxFig grouped (some x) (some kpi) cOpt (kpi ++ " Overview"))
      else
        .ok (pxFig eng.df (some kpi) (some (secondary_kpi.getD kpi)) cOpt
          (match secondary_kpi with
           | some s => kpi ++ " vs " ++ s
           | none => kpi ++ " Scatter"))

/-- KPIEngine._create_pie_chart: placeholder when group_by is absent, else
a sum-aggregated pie. -/
def createPieChart (eng : KPIEngine) (kpi : String) (group_by : Option String) :
    Except String Fig :=
  match cleanSelect group_by with
  | none =>
      .ok { emptyFig with
              annotations := ["Pie chart requires a group-by column"],
              showLegend := false }
  | some g =>
      match (eng.df).colIdx kpi with
      | none => .error ("KeyError: " ++ kpi)
      | some _ =>
          let dfw := widenF16 eng.df kpi
          match dfw.colIdx g, dfw.colIdx kpi with
          | some gIdx, some kIdx =>
              let keys := dedupFirst ((dfw.colValues gIdx).filter (fun v => v ≠ .vNull))
              let grouped : Frame :=
                { cols := [g, kpi],
                  dtypes := [dfw.dtypeAt gIdx, .float64],
                  rows := keys.map (fun v =>
                    let kvals := (dfw.rows.filter (fun r => cellAt r gIdx = v)).filterMap
                      (fun r => (cellAt r kIdx).toQ)
                    [v, .vFloat kvals.sum]) }
              .ok { pxFig grouped (some g) (some kpi) none (kpi ++ " Distribution") with
                      sizeCol := none }
          | _, _ => .error ("KeyError: " ++ g)

/-- KPIEngine._create_heatmap.  The correlation-matrix figure itself is kept
abstract (Pearson correlations are irrational); only the placeholder branch
is observable by the claims. -/
def createHeatmap (eng : KPIEngine) : Fig :=
  if (numericColNames eng.df).length < 2 then
    { emptyFig with annotations := ["Need at least 2 numeric columns for heatmap"] }
  else
    { pxFig eng.df none none none "KPI Correlation Heatmap" with data := none }

/-- KPIEngine._create_bubble_chart. -/
def createBubbleChart (eng : KPIEngine) (kpi : String)
    (secondary_kpi color_by : Option String) : Fig :=
  let sec := match secondary_kpi with
             | none => kpi
             | some s => s
  if sec ∉ numericColNames eng.df then
    pxFig eng.df (some kpi) (some kpi) color_by (kpi ++ " Bubble")
  else
    { pxFig eng.df (some kpi) (some sec) color_by (kpi ++ " vs " ++ sec) with
        sizeCol := some sec }

/-- KPIEngine._apply_color_mode, with the random draws supplied as a stream
of colors (the code draws them from the 24-bit RGB space per trace). -/
def applyColorMode (eng : KPIEngine) (randomColors : List String) (fig : Fig) : Fig :=
  if eng.color_mode = "plain" then
    { fig with traces := fig.traces.map (fun t =>
        { t with markerColor := some eng.plain_color,
                 lineColor := some eng.plain_color }) }
  else if eng.color_mode = "randomized" then
    { fig with traces := (fig.traces.zip
        (randomColors ++ List.replicate fig.traces.length "#000000")).map (fun p =>
        { markerColor := some (p.1.markerColor.getD p.2),
          lineColor := some (p.1.lineColor.getD p.2) }) }
  else fig

/-- KPIEngine.create_chart: dispatch on chart_type, then color-mode pass. -/
def createChart (eng : KPIEngine) (randomColors : List String)
    (kpi chart_type : String)
    (group_by secondary_kpi color_by label : Option String) : Except String Fig :=
  let title := label.getD (chart_type ++ " of " ++ kpi)
  let body : Except String Fig :=
    if chart_type = "Heatmap" then .ok (createHeatmap eng)
    else if chart_type = "Bubble" then .ok (createBubbleChart eng kpi secondary_kpi color_by)
    else if chart_type = "Pie" then createPieChart eng kpi group_by
    else if chart_type = "Histogram" then
      if (eng.df).colIdx kpi = none then .error ("KeyError: " ++ kpi)
      else .ok (pxFig eng.df (some kpi) none none title)
    else if chart_type = "Box" ∨ chart_type = "Violin" then
      if (eng.df).colIdx kpi = none then .error ("KeyError: " ++ kpi)
      else .ok (pxFig eng.df color_by (some kpi) none title)
    else createStandardChart eng kpi chart_type group_by color_by secondary_kpi
  body.map (applyColorMode eng randomColors)

/-! ## Live serving (src/exports/live_server.py)

The environment is a function from port numbers to bind outcomes; an
occupied port makes TCPServer raise OSError, whose errno the environment
supplies (the code recognizes errno 48, EADDRINUSE on the platform it was
written for). -/

/-- Outcome of socketserver.TCPServer(("", port), handler). -/
inductive BindRes where
  | ok
  | err (errno : Nat)
  deriving DecidableEq, Repr

/-- Observable outcome of serve_dashboard_live. -/
inductive ServeOutcome where
  | started (port : Nat)
  | errorShown (msg : String)
  | raised (errno : Nat)
  deriving DecidableEq, Repr

/-- The port-retry loop of serve_dashboard_live; `remaining` is
max_attempts − attempt, so remaining = 1 is the last attempt (attempt ==
max_attempts − 1) and remaining = 0 the dead for-else branch. -/
def serveLoop (env : Nat → BindRes) : Nat → Nat → ServeOutcome
  | _, 0 => .errorShown "Could not start server - no available ports found."
  | port, r + 1 =>
      match env port with
      | .ok => .started port
      | .err n =>
          if n = 48 then
            if r = 0 then
              .errorShown ("Could not find an available port after 10 attempts." ++
                " Please close some applications and try again.")
            else serveLoop env (port + 1) r
          else .raised n

/-- serve_dashboard_live: start at port 8000 with a budget of 10 attempts. -/
def serveDashboardLive (env : Nat → BindRes) : ServeOutcome :=
  serveLoop env 8000 10

/-- The message shown when every attempted port is occupied. -/
def noPortMsg : String :=
  "Could not find an available port after 10 attempts." ++
    " Please close some applications and try again."

/-! ## File reading (src/utils/file_handler.py) -/

/-- An uploaded file: its name plus what pandas would produce for it.  The
parse outcomes stand for the external read_csv/read_excel calls; their
error strings are str(e) of the library exception. -/
structure UploadedFile where
  name : String
  csvResult : Except String Frame
  excelResult : Except String Frame

/-- read_file: suffix dispatch and emptiness check inside a try whose
handler rewraps every exception, behind the None guard that is outside
the try. -/
def readFile : Option UploadedFile → Except String Frame
  | none => .error "No file uploaded"
  | some f =>
      let inner : Except String Frame :=
        match
          (if f.name.endsWith ".csv" then f.csvResult
           else if f.name.endsWith ".xlsx" || f.name.endsWith ".xls" then f.excelResult
           else .error "Unsupported file type. Please upload a CSV or Excel file.")
        with
        | .error e => .error e
        | .ok df =>
            if df.empty then .error "Uploaded file contains no data" else .ok df
      match inner with
      | .ok df => .ok df
      | .error e => .error ("Failed to read the file: " ++ e)

/-! ## Mutation model for clean_data (claim about the input not changing)

Python dataframes are heap objects; clean_data receives a reference.  The
heap is a list of frames, references are indices; DataFrame.copy and the
frame-returning pandas operations allocate, `df[col] = ...` and
`df.columns = ...` write in place through the reference. -/

abbrev Heap := List Frame

def emptyFrame : Frame := { cols := [], dtypes := [], rows := [] }

/-- Dereference (a dangling reference reads as an empty frame; clean_data
is only ever called on live references). -/
def geth (h : Heap) (r : Nat) : Frame := h.getD r emptyFrame

/-- Allocate a fresh frame, returning its reference. -/
def alloc (h : Heap) (d : Frame) : Heap × Nat := (h ++ [d], h.length)

/-- In-place update through a reference. -/
def writeh (h : Heap) (r : Nat) (d : Frame) : Heap := h.set r d

/-- _clean_column_names: df = df.copy(), then df.columns = [...] writes the
copy in place. -/
def cleanColumnNamesH (h : Heap) (r : Nat) : Heap × Nat :=
  let p := alloc h (geth h r)
  (writeh p.1 p.2 (cleanColumnNames (geth p.1 p.2)), p.2)

/-- _handle_duplicates: df.drop_duplicates() builds a new frame; the local
rebinding allocates, nothing is written through the argument. -/
def handleDuplicatesH (h : Heap) (r : Nat) : Heap × Nat :=
  alloc h (handleDuplicates (geth h r))

/-- _handle_missing_values: df = df.copy(), then one in-place column write
per column of missing_cols (computed once, up front, from the copy). -/
def handleMissingValuesH (h : Heap) (r : Nat) : Heap × Nat :=
  let p := alloc h (geth h r)
  ((missingIdx (geth p.1 p.2)).foldl
      (fun hAcc i => writeh hAcc p.2 (fillColumnStep (geth hAcc p.2) i)) p.1,
    p.2)

/-- The column selections of _optimize_data_types, taken before each of
its two loops. -/
def numericSel (d : Frame) : List Nat :=
  (List.range d.cols.length).filter
    (fun i => d.dtypeAt i = .int64 || d.dtypeAt i = .float64)

def objectSel (d : Frame) : List Nat :=
  (List.range d.cols.length).filter (fun i => d.dtypeAt i = .object)

/-- _optimize_data_types: df = df.copy(), an in-place write per selected
numeric column, then per selected object column. -/
def optimizeDataTypesH (h : Heap) (r : Nat) : Heap × Nat :=
  let p := alloc h (geth h r)
  let h2 := (numericSel (geth p.1 p.2)).foldl
    (fun hAcc i => writeh hAcc p.2 (optimizeNumericStep (geth hAcc p.2) i)) p.1
  ((objectSel (geth h2 p.2)).foldl
      (fun hAcc i => writeh hAcc p.2 (optimizeObjectStep (geth hAcc p.2) i)) h2,
    p.2)

/-- _handle_outliers: df = df.copy(); each round of the column loop either
keeps the current frame or rebinds to the freshly allocated filtered frame
(boolean indexing builds a new object). -/
def handleOutliersH (h : Heap) (r : Nat) (method : OutlierMethod) (threshold : ℚ) :
    Heap × Nat :=
  let p := alloc h (geth h r)
  let step := fun (q : Heap × Nat) (d2 : Frame) =>
    if d2 = geth q.1 q.2 then q else alloc q.1 d2
  match method with
  | .iqr =>
      (numericIdx (geth p.1 p.2)).foldl
        (fun q i => step q (iqrStep threshold (geth q.1 q.2) i)) p
  | .zscore =>
      (numericIdx (geth p.1 p.2)).foldl
        (fun q i => step q (zscoreStep threshold (geth q.1 q.2) i)) p
  | .otherMethod => p

/-- clean_data on the heap: the empty guard raises (heap untouched),
otherwise cleaned_df = df.copy() and the enabled steps run in order,
threading the working reference. -/
def cleanDataH (cfg : CleanConfig) (h : Heap) (r : Nat) : Heap × Option Nat :=
  if (geth h r).empty then (h, none)
  else
    let p0 := alloc h (geth h r)
    let p1 := if cfg.clean_columns then cleanColumnNamesH p0.1 p0.2 else p0
    let p2 := if cfg.handle_duplicates then handleDuplicatesH p1.1 p1.2 else p1
    let p3 := if cfg.handle_missing then handleMissingValuesH p2.1 p2.2 else p2
    let p4 := if cfg.optimize_types then optimizeDataTypesH p3.1 p3.2 else p3
    let p5 := if cfg.remove_outliers then
        handleOutliersH p4.1 p4.2 cfg.outlier_method cfg.outlier_threshold
      else p4
    (p5.1, some p5.2)

/-- The successive heap states of clean_data, one per step, for reasoning
about the composition. -/
def hstage0 (h : Heap) (r : Nat) : Heap × Nat := alloc h (geth h r)

def hstage1 (cfg : CleanConfig) (h : Heap) (r : Nat) : Heap × Nat :=
  if cfg.clean_columns then cleanColumnNamesH (hstage0 h r).1 (hstage0 h r).2
  else hstage0 h r

def hstage2 (cfg : CleanConfig) (h : Heap) (r : Nat) : Heap × Nat :=
  if cfg.handle_duplicates then
    handleDuplicatesH (hstage1 cfg h r).1 (hstage1 cfg h r).2
  else hstage1 cfg h r

def hstage3 (cfg : CleanConfig) (h : Heap) (r : Nat) : Heap × Nat :=
  if cfg.handle_missing then
    handleMissingValuesH (hstage2 cfg h r).1 (hstage2 cfg h r).2
  else hstage2 cfg h r

def hstage4 (cfg : CleanConfig) (h : Heap) (r : Nat) : Heap × Nat :=
  if cfg.optimize_types then
    optimizeDataTypesH (hstage3 cfg h r).1 (hstage3 cfg h r).2
  else hstage3 cfg h r

def hstage5 (cfg : CleanConfig) (h : Heap) (r : Nat) : Heap × Nat :=
  if cfg.remove_outliers then
    handleOutliersH (hstage4 cfg h r).1 (hstage4 cfg h r).2
      cfg.outlier_method cfg.outlier_threshold
  else hstage4 cfg h r

/-- Heap p extends heap h0 without touching its live references. -/
def PairPres (h0 : Heap) (p : Heap × Nat) : Prop :=
  h0.length ≤ p.1.length ∧ ∀ rp, rp < h0.length → p.1[rp]? = h0[rp]?

/-- f only allocates and writes fresh references. -/
def HPres (f : Heap → Nat → Heap × Nat) : Prop :=
  ∀ h r, PairPres h (f h r)

/-! ## Concrete inputs and spec-side definitions used by the theorems -/

/-- C3 counterexample input: a frame with one row and no columns (pandas
DataFrame(index=[0])); DataFrame.empty is true for it. -/
def oneRowNoCols : Frame := { cols := [], dtypes := [], rows := [[]] }

/-- Environment with every port occupied. -/
def envAllBusy : Nat → BindRes := fun _ => .err 48

/-- Environment where 8000..8002 are occupied and 8003 is free. -/
def envFreeAt8003 : Nat → BindRes := fun p => if p = 8003 then .ok else .err 48

/-- A small engine for the C8 witness. -/
def engWitness : KPIEngine :=
  { df := { cols := ["region", "sales"], dtypes := [.object, .int64],
            rows := [[.vStr "East", .vInt 10], [.vStr "West", .vInt 20]] } }

/-- Spec-side definition, following the claim's words: the smallest of the
8/16/32-bit signed tiers whose representable range contains (inclusively)
the observed minimum and maximum, else int64. -/
def smallestContainingTier (cmin cmax : ℚ) : DType :=
  if -(2 ^ 7 : ℚ) ≤ cmin ∧ cmax ≤ (2 ^ 7 - 1 : ℚ) then .int8
  else if -(2 ^ 15 : ℚ) ≤ cmin ∧ cmax ≤ (2 ^ 15 - 1 : ℚ) then .int16
  else if -(2 ^ 31 : ℚ) ≤ cmin ∧ cmax ≤ (2 ^ 31 - 1 : ℚ) then .int32
  else .int64

/-- Amended-spec definition: the smallest tier whose bounds strictly
contain the observed extremes (exclusive at both type bounds, matching the
code's comparisons). -/
def smallestStrictTier (cmin cmax : ℚ) : DType :=
  match [DType.int8, DType.int16, DType.int32].find? (fun t =>
      decide (-(2 ^ (intWidth t - 1) : ℚ) < cmin) &&
        decide (cmax < (2 ^ (intWidth t - 1) - 1 : ℚ))) with
  | some t => t
  | none => .int64

/-- C5 counterexample input: an int64 column with values 0 and 127. -/
def dfInt127 : Frame :=
  { cols := ["n"], dtypes := [.int64], rows := [[.vInt 0], [.vInt 127]] }

/-- C1 witness input: two columns, a duplicated row, an int64 kpi. -/
def dfC1 : Frame :=
  { cols := ["Product Name", "Sales Amount"], dtypes := [.object, .int64],
    rows := [[.vStr "a", .vInt 5], [.vStr "a", .vInt 5], [.vStr "b", .vInt 300]] }

/-- C4 witness input: one int64 column holding 1, 2, 3, 100. -/
def dfC4 : Frame :=
  { cols := ["x"], dtypes := [.int64],
    rows := [[.vInt 1], [.vInt 2], [.vInt 3], [.vInt 100]] }

/-! # Theorems -/

deriving instance DecidableEq for Except

attribute [local semireducible] Rat.add Rat.sub Rat.mul Rat.inv

/-! ## Helper lemmas on the normalization characters -/

lemma char_ofNat_toNat_ascii (n : Nat) (h1 : 97 ≤ n) (h2 : n ≤ 122) :
    (Char.ofNat n).toNat = n := by
  have hv : n.isValidChar := Or.inl (by omega)
  rw [Char.ofNat, dif_pos hv]
  simp [Char.toNat, Char.ofNatAux, UInt32.toNat]

lemma char_ne_of_toNat_ne {c d : Char} (h : c.toNat ≠ d.toNat) : c ≠ d :=
  fun he => h (congrArg Char.toNat he)

lemma isPyWhitespace_false_of_toNat (c : Char) (h : 97 ≤ c.toNat) :
    isPyWhitespace c = false := by
  unfold isPyWhitespace
  have h1 : c ≠ ' ' := char_ne_of_toNat_ne
    (by have e : (' ' : Char).toNat = 32 := rfl; omega)
  have h2 : c ≠ '\t' := char_ne_of_toNat_ne
    (by have e : ('\t' : Char).toNat = 9 := rfl; omega)
  have h3 : c ≠ '\n' := char_ne_of_toNat_ne
    (by have e : ('\n' : Char).toNat = 10 := rfl; omega)
  have h4 : c ≠ '\x0d' := char_ne_of_toNat_ne
    (by have e : ('\x0d' : Char).toNat = 13 := rfl; omega)
  have h5 : c ≠ '\x0b' := char_ne_of_toNat_ne
    (by have e : ('\x0b' : Char).toNat = 11 := rfl; omega)
  have h6 : c ≠ '\x0c' := char_ne_of_toNat_ne
    (by have e : ('\x0c' : Char).toNat = 12 := rfl; omega)
  simp [h1, h2, h3, h4, h5, h6]

/-- Normalization never produces a whitespace character from a
non-whitespace one. -/
lemma normChar_not_ws {c : Char} (h : isPyWhitespace c = false) :
    isPyWhitespace (normChar c) = false := by
  unfold normChar toLowerAscii
  by_cases hA : 'A' ≤ c ∧ c ≤ 'Z'
  · rw [if_pos hA]
    have h1 : 65 ≤ c.toNat := hA.1
    have h2 : c.toNat ≤ 90 := hA.2
    have hv : (Char.ofNat (c.toNat + 32)).toNat = c.toNat + 32 :=
      char_ofNat_toNat_ascii _ (by omega) (by omega)
    unfold underscoreRepl
    have hsp : Char.ofNat (c.toNat + 32) ≠ ' ' :=
      char_ne_of_toNat_ne
        (by rw [hv]; have e : (' ' : Char).toNat = 32 := rfl; omega)
    have hhy : Char.ofNat (c.toNat + 32) ≠ '-' :=
      char_ne_of_toNat_ne
        (by rw [hv]; have e : ('-' : Char).toNat = 45 := rfl; omega)
    rw [if_neg hsp, if_neg hhy]
    exact isPyWhitespace_false_of_toNat _ (by omega)
  · rw [if_neg hA]
    unfold underscoreRepl
    by_cases hsp : c = ' '
    · subst hsp; simp [isPyWhitespace] at h
    · rw [if_neg hsp]
      by_cases hhy : c = '-'
      · rw [if_pos hhy]; decide
      · rw [if_neg hhy]; exact h

/-- Normalization of a single character is idempotent. -/
lemma normChar_idem (c : Char) : normChar (normChar c) = normChar c := by
  by_cases hA : 'A' ≤ c ∧ c ≤ 'Z'
  · have h1 : 65 ≤ c.toNat := hA.1
    have h2 : c.toNat ≤ 90 := hA.2
    have hv : (Char.ofNat (c.toNat + 32)).toNat = c.toNat + 32 :=
      char_ofNat_toNat_ascii _ (by omega) (by omega)
    have hsp : Char.ofNat (c.toNat + 32) ≠ ' ' :=
      char_ne_of_toNat_ne
        (by rw [hv]; have e : (' ' : Char).toNat = 32 := rfl; omega)
    have hhy : Char.ofNat (c.toNat + 32) ≠ '-' :=
      char_ne_of_toNat_ne
        (by rw [hv]; have e : ('-' : Char).toNat = 45 := rfl; omega)
    have hlo : normChar c = Char.ofNat (c.toNat + 32) := by
      unfold normChar toLowerAscii underscoreRepl
      rw [if_pos hA, if_neg hsp, if_neg hhy]
    rw [hlo]
    have hnA : ¬ ('A' ≤ Char.ofNat (c.toNat + 32) ∧ Char.ofNat (c.toNat + 32) ≤ 'Z') := by
      intro hc
      have : (Char.ofNat (c.toNat + 32)).toNat ≤ 90 := hc.2
      omega
    unfold normChar toLowerAscii underscoreRepl
    rw [if_neg hnA, if_neg hsp, if_neg hhy]
  · have hid : toLowerAscii c = c := by unfold toLowerAscii; rw [if_neg hA]
    by_cases hsp : c = ' '
    · subst hsp; decide
    · by_cases hhy : c = '-'
      · subst hhy; decide
      · have hcc : normChar c = c := by
          unfold normChar underscoreRepl
          rw [hid, if_neg hsp, if_neg hhy]
        simp only [hcc]

/-- The first element of a list unchanged by dropWhile is not whitespace,
transported through map normChar. -/
lemma dropWhile_map_normChar_self (x : List Char)
    (hx : x.dropWhile isPyWhitespace = x) :
    (x.map normChar).dropWhile isPyWhitespace = x.map normChar := by
  rw [List.dropWhile_eq_self_iff] at hx ⊢
  intro hl
  have hl0 : 0 < x.length := by simpa using hl
  have hget : (x.map normChar).get ⟨0, hl⟩ = normChar (x.get ⟨0, hl0⟩) := by
    simp
  rw [hget]
  have := hx hl0
  simp only [Bool.not_eq_true] at this ⊢
  exact normChar_not_ws this

lemma rdropWhile_map_normChar_self (x : List Char)
    (hx : x.rdropWhile isPyWhitespace = x) :
    (x.map normChar).rdropWhile isPyWhitespace = x.map normChar := by
  unfold List.rdropWhile at hx ⊢
  have hrev : (x.reverse).dropWhile isPyWhitespace = x.reverse := by
    have h2 := congrArg List.reverse hx
    simpa using h2
  have hmap := dropWhile_map_normChar_self x.reverse hrev
  rw [← List.map_reverse, hmap, List.map_reverse, List.reverse_reverse]

/-- Leading-whitespace freedom survives rdropWhile. -/
lemma dropWhile_rdropWhile_self (z : List Char)
    (hz : z.dropWhile isPyWhitespace = z) :
    (z.rdropWhile isPyWhitespace).dropWhile isPyWhitespace =
      z.rdropWhile isPyWhitespace := by
  rw [List.dropWhile_eq_self_iff] at hz ⊢
  intro hl
  obtain ⟨t, ht⟩ := List.rdropWhile_prefix isPyWhitespace (l := z)
  have hzlen : 0 < z.length := by
    rw [← ht, List.length_append]
    omega
  have hsome : (z.rdropWhile isPyWhitespace)[0]? = z[0]? := by
    conv_rhs => rw [← ht]
    exact (List.getElem?_append_left hl).symm
  have heq : (z.rdropWhile isPyWhitespace).get ⟨0, hl⟩ = z.get ⟨0, hzlen⟩ := by
    rw [List.getElem?_eq_getElem hl, List.getElem?_eq_getElem hzlen] at hsome
    simpa using hsome
  rw [heq]
  exact hz hzlen

/-- stripWs output is already stripped on the left. -/
lemma stripWs_no_lead (l : List Char) :
    (stripWs l).dropWhile isPyWhitespace = stripWs l := by
  unfold stripWs
  exact dropWhile_rdropWhile_self _ (List.dropWhile_idempotent _ _)

/-- stripWs output is already stripped on the right. -/
lemma stripWs_no_trail (l : List Char) :
    (stripWs l).rdropWhile isPyWhitespace = stripWs l := by
  unfold stripWs
  exact List.rdropWhile_idempotent _ _

/-- Character-list normalization is idempotent. -/
lemma normalizeChars_idem (l : List Char) :
    normalizeChars (normalizeChars l) = normalizeChars l := by
  have hstr : stripWs (normalizeChars l) = normalizeChars l := by
    show stripWs ((stripWs l).map normChar) = (stripWs l).map normChar
    have h1 : ((stripWs l).map normChar).dropWhile isPyWhitespace =
        (stripWs l).map normChar :=
      dropWhile_map_normChar_self _ (stripWs_no_lead l)
    show (((stripWs l).map normChar).dropWhile isPyWhitespace).rdropWhile
        isPyWhitespace = (stripWs l).map normChar
    rw [h1]
    exact rdropWhile_map_normChar_self _ (stripWs_no_trail l)
  show (stripWs (normalizeChars l)).map normChar = normalizeChars l
  rw [hstr]
  show ((stripWs l).map normChar).map normChar = normalizeChars l
  rw [List.map_map]
  exact List.map_congr_left (fun c _ => by
    simpa [Function.comp] using normChar_idem c)

/-- Name normalization is idempotent. -/
lemma normalizeName_idem (s : String) :
    normalizeName (normalizeName s) = normalizeName s := by
  unfold normalizeName
  exact congrArg String.mk (normalizeChars_idem s.data)

/-- C7 theorem: applying _clean_column_names twice equals applying it
once, on every dataframe. -/
theorem clean_column_names_idempotent (df : Frame) :
    cleanColumnNames (cleanColumnNames df) = cleanColumnNames df := by
  unfold cleanColumnNames
  simp only [List.map_map]
  congr 1
  exact List.map_congr_left (fun s _ => by
    simpa [Function.comp] using normalizeName_idem s)

/-! ## C3: the empty-input guard -/

/-- C3 counterexample: a table with one row still hits the "empty input"
error, because the guard tests DataFrame.empty, which is also true when
the column axis is empty. -/
theorem clean_data_empty_error_one_row :
    oneRowNoCols.rows.length = 1 ∧
      cleanData oneRowNoCols {} =
        Except.error "DataFrame is empty. No data to clean." := by
  constructor
  · rfl
  · rfl

/-- C3 (amended) theorem: clean_data raises the "empty input" error exactly
when the input table has zero rows or zero columns. -/
theorem clean_data_empty_error_iff (df : Frame) (cfg : CleanConfig) :
    cleanData df cfg = .error "DataFrame is empty. No data to clean." ↔
      (df.rows = [] ∨ df.cols = []) := by
  unfold cleanData
  by_cases h : df.empty
  · simp only [h, if_true]
    unfold Frame.empty at h
    simp only [Bool.or_eq_true, List.isEmpty_iff] at h
    simp [h]
  · simp only [h]
    unfold Frame.empty at h
    simp only [Bool.or_eq_true, List.isEmpty_iff] at h
    push_neg at h
    simp only [Bool.false_eq_true, if_false]
    constructor
    · intro hc
      cases hc
    · intro hc
      rcases hc with hc | hc
      · exact absurd hc h.1
      · exact absurd hc h.2

/-! ## C9: the live-server port loop -/

lemma serveLoop_all_busy (env : Nat → BindRes) :
    ∀ r port, 0 < r → (∀ j, j < r → env (port + j) = .err 48) →
      serveLoop env port r = .errorShown noPortMsg := by
  intro r
  induction r with
  | zero => intro port h0; omega
  | succ n ih =>
      intro port _ h
      have h0 : env port = .err 48 := by simpa using h 0 (by omega)
      unfold serveLoop
      rw [h0]
      simp only [if_pos rfl]
      by_cases hn : n = 0
      · subst hn
        simp [noPortMsg]
      · rw [if_neg hn]
        apply ih port.succ (by omega)
        intro j hj
        have := h (j + 1) (by omega)
        simpa [Nat.succ_eq_add_one, Nat.add_assoc, Nat.add_comm 1 j] using this

lemma serveLoop_first_free (env : Nat → BindRes) :
    ∀ k r port, k < r → (∀ j, j < k → env (port + j) = .err 48) →
      env (port + k) = .ok →
      serveLoop env port r = .started (port + k) := by
  intro k
  induction k with
  | zero =>
      intro r port hr _ hfree
      match r, hr with
      | r + 1, _ =>
        unfold serveLoop
        simp only [Nat.add_zero] at hfree
        rw [hfree]
        simp
  | succ n ih =>
      intro r port hr hbusy hfree
      match r, hr with
      | r + 1, hr =>
        have h0 : env port = .err 48 := by simpa using hbusy 0 (by omega)
        unfold serveLoop
        rw [h0]
        simp only [if_pos rfl]
        have hrne : r ≠ 0 := by omega
        rw [if_neg hrne]
        have hres := ih r (port + 1) (by omega)
          (fun j hj => by
            have := hbusy (j + 1) (by omega)
            simpa [Nat.add_assoc, Nat.add_comm 1 j] using this)
          (by simpa [Nat.add_assoc, Nat.add_comm 1 n] using hfree)
        rw [hres]
        simp [Nat.add_assoc, Nat.add_comm 1 n]

/-- C9 theorem: when ports 8000..8009 are all occupied (bind raises
EADDRINUSE, the errno the loop matches on), serve_dashboard_live stops with
the explicit no-available-port message and never starts a server; and in
general it starts on the first available port of that window. -/
theorem serve_dashboard_live_ports (env : Nat → BindRes) :
    ((∀ p, 8000 ≤ p → p ≤ 8009 → env p = .err 48) →
      serveDashboardLive env = .errorShown noPortMsg) ∧
    (∀ k, k < 10 → (∀ j, j < k → env (8000 + j) = .err 48) →
      env (8000 + k) = .ok →
      serveDashboardLive env = .started (8000 + k)) := by
  constructor
  · intro h
    exact serveLoop_all_busy env 10 8000 (by omega)
      (fun j hj => h (8000 + j) (by omega) (by omega))
  · intro k hk hbusy hfree
    exact serveLoop_first_free env k 10 8000 hk hbusy hfree

/-- C9 witness: with all ports busy the loop reports the failure; with the
first free port at 8003 the server starts there. -/
theorem serve_dashboard_live_ports_witness :
    serveDashboardLive envAllBusy = .errorShown noPortMsg ∧
      serveDashboardLive envFreeAt8003 = .started 8003 := by
  constructor
  · exact (serve_dashboard_live_ports envAllBusy).1 (fun p _ _ => rfl)
  · have h := (serve_dashboard_live_ports envFreeAt8003).2 3 (by omega)
      (fun j hj => by
        unfold envFreeAt8003
        rw [if_neg (by omega)])
      (by unfold envFreeAt8003; rw [if_pos (by omega)])
    simpa using h

/-! ## C10: read_file error wrapping -/

/-- C10 counterexample: the None-input guard sits outside the try, so its
ValueError reaches the caller unwrapped, not prefixed by the wrapper text. -/
theorem read_file_none_unwrapped :
    readFile none = .error "No file uploaded" ∧
      ¬ ∃ rest, "No file uploaded" = "Failed to read the file: " ++ rest := by
  constructor
  · rfl
  · rintro ⟨rest, h⟩
    have hl := congrArg String.length h
    rw [String.length_append] at hl
    have h1 : ("No file uploaded" : String).length = 16 := rfl
    have h2 : ("Failed to read the file: " : String).length = 25 := rfl
    omega

/-- C10 (amended) theorem: for every actual uploaded file, read_file either
returns a non-empty dataframe or fails with a message that begins with the
wrapper text — the unsupported-type and no-data validation errors
included. -/
theorem read_file_wraps_errors (f : UploadedFile) :
    (∃ df, readFile (some f) = .ok df ∧ df.empty = false) ∨
    (∃ rest, readFile (some f) = .error ("Failed to read the file: " ++ rest)) := by
  rcases hres : (if f.name.endsWith ".csv" then f.csvResult
      else if f.name.endsWith ".xlsx" || f.name.endsWith ".xls" then f.excelResult
      else .error "Unsupported file type. Please upload a CSV or Excel file.")
    with e | df
  · right
    refine ⟨e, ?_⟩
    simp only [readFile]
    rw [hres]
  · by_cases hemp : df.empty
    · right
      refine ⟨"Uploaded file contains no data", ?_⟩
      simp only [readFile]
      rw [hres]
      simp [hemp]
    · left
      refine ⟨df, ?_, by simpa using hemp⟩
      simp only [readFile]
      rw [hres]
      simp [hemp]

/-! ## C8: pie chart without group_by -/

/-- _apply_color_mode rebuilds only the trace list. -/
lemma applyColorMode_fields (eng : KPIEngine) (colors : List String) (fig : Fig) :
    (applyColorMode eng colors fig).annotations = fig.annotations ∧
      (applyColorMode eng colors fig).showLegend = fig.showLegend ∧
      (applyColorMode eng colors fig).data = fig.data ∧
      (applyColorMode eng colors fig).xCol = fig.xCol ∧
      (applyColorMode eng colors fig).yCol = fig.yCol := by
  unfold applyColorMode
  split_ifs <;> simp

/-- C8 theorem: a Pie chart with group_by unset (missing or the sentinel
string None) never raises: create_chart returns a placeholder whose single
annotation is the non-empty explanatory text and whose legend is hidden. -/
theorem pie_chart_placeholder (eng : KPIEngine) (randomColors : List String)
    (kpi : String) (group_by secondary_kpi color_by label : Option String)
    (h : group_by = none ∨ group_by = some "None") :
    ∃ fig, createChart eng randomColors kpi "Pie" group_by secondary_kpi
        color_by label = .ok fig ∧
      fig.annotations = ["Pie chart requires a group-by column"] ∧
      fig.showLegend = false ∧
      "Pie chart requires a group-by column" ≠ "" := by
  have hsel : cleanSelect group_by = none := by
    rcases h with h | h <;> subst h <;> rfl
  have hpie : createPieChart eng kpi group_by =
      .ok { emptyFig with
              annotations := ["Pie chart requires a group-by column"],
              showLegend := false } := by
    unfold createPieChart
    rw [hsel]
  have hdispatch : createChart eng randomColors kpi "Pie" group_by secondary_kpi
      color_by label =
      (createPieChart eng kpi group_by).map (applyColorMode eng randomColors) := rfl
  refine ⟨applyColorMode eng randomColors
      { emptyFig with
          annotations := ["Pie chart requires a group-by column"],
          showLegend := false }, ?_, ?_, ?_, ?_⟩
  · rw [hdispatch, hpie]
    rfl
  · exact (applyColorMode_fields eng randomColors _).1
  · exact (applyColorMode_fields eng randomColors _).2.1
  · decide

/-- C8 witness: concrete placeholder for the sentinel group_by. -/
theorem pie_chart_placeholder_witness :
    ((some "None" : Option String) = none ∨ (some "None" : Option String) = some "None") ∧
      ∃ fig, createChart engWitness [] "sales" "Pie" (some "None") none none none =
          .ok fig ∧
        fig.annotations = ["Pie chart requires a group-by column"] ∧
        fig.showLegend = false ∧
        "Pie chart requires a group-by column" ≠ "" :=
  ⟨Or.inr rfl, pie_chart_placeholder engWitness [] "sales" (some "None") none none none
    (Or.inr rfl)⟩

/-! ## C2: grouped standard charts -/

lemma widenF16_cols (df : Frame) (name : String) :
    (widenF16 df name).cols = df.cols := by
  unfold widenF16
  cases h : df.colIdx name with
  | none => rfl
  | some i =>
      simp only []
      split_ifs <;> rfl

lemma widenF16_rows (df : Frame) (name : String) :
    (widenF16 df name).rows = df.rows := by
  unfold widenF16
  cases h : df.colIdx name with
  | none => rfl
  | some i =>
      simp only []
      split_ifs <;> rfl

lemma widenF16_colIdx (df : Frame) (name m : String) :
    (widenF16 df name).colIdx m = df.colIdx m := by
  unfold Frame.colIdx
  rw [widenF16_cols]

lemma widenF16_colValues (df : Frame) (name : String) (i : Nat) :
    (widenF16 df name).colValues i = df.colValues i := by
  unfold Frame.colValues
  rw [widenF16_rows]

/-- Dispatch: Bar, Line and Area go through _create_standard_chart. -/
lemma createChart_standard_dispatch (eng : KPIEngine) (colors : List String)
    (kpi chart_type : String) (gb sec cb lbl : Option String)
    (hct : chart_type = "Bar" ∨ chart_type = "Line" ∨ chart_type = "Area") :
    createChart eng colors kpi chart_type gb sec cb lbl =
      (createStandardChart eng kpi chart_type gb cb sec).map
        (applyColorMode eng colors) := by
  rcases hct with h | h | h <;> subst h <;> rfl

/-- The grouped branch of _create_standard_chart for the aggregated chart
kinds, reduced to the grouped frame it hands to plotly. -/
lemma createStandardChart_grouped (eng : KPIEngine) (kpi chart_type g : String)
    (cb sec : Option String) (hg : g ≠ "None")
    (hct : chart_type = "Bar" ∨ chart_type = "Line" ∨ chart_type = "Area")
    (kIdx gIdx : Nat) (hk : eng.df.colIdx kpi = some kIdx)
    (hgi : eng.df.colIdx g = some gIdx) :
    createStandardChart eng kpi chart_type (some g) cb sec =
      .ok (pxFig (groupAgg (widenF16 (widenF16 eng.df kpi) g) gIdx kIdx g kpi)
        (some g) (some (kpi ++ "_mean")) (cleanSelect cb) (kpi ++ " by " ++ g)) := by
  unfold createStandardChart
  have hsel : cleanSelect (some g) = some g := by
    simp [cleanSelect, hg]
  rw [hsel]
  simp only [widenF16_colIdx, hk, hgi]
  rw [if_pos hct]

/-- C2 (amended) theorem: for Bar, Line and Area with group_by set to a
column, create_chart hands plotly the frame aggregated by the group column
— one row per distinct non-null group key, carrying the sum, the mean
(sum over count of the non-null kpi cells of that group) and the count —
with the group column as x-axis and the mean column as y-axis.  The number
of x-axis categories is therefore the number of distinct group values. -/
theorem standard_chart_group_aggregation (eng : KPIEngine) (colors : List String)
    (kpi g chart_type : String) (sec cb lbl : Option String)
    (hct : chart_type = "Bar" ∨ chart_type = "Line" ∨ chart_type = "Area")
    (hg : g ≠ "None") (kIdx gIdx : Nat)
    (hk : eng.df.colIdx kpi = some kIdx) (hgi : eng.df.colIdx g = some gIdx) :
    ∃ fig d, createChart eng colors kpi chart_type (some g) sec cb lbl = .ok fig ∧
      fig.data = some d ∧ fig.xCol = some g ∧ fig.yCol = some (kpi ++ "_mean") ∧
      d.cols = [g, kpi ++ "_sum", kpi ++ "_mean", kpi ++ "_count"] ∧
      d.rows = (dedupFirst ((eng.df.colValues gIdx).filter (fun v => v ≠ .vNull))).map
        (fun v =>
          let kvals := (eng.df.rows.filter (fun row => cellAt row gIdx = v)).filterMap
            (fun row => (cellAt row kIdx).toQ)
          [v, .vFloat kvals.sum,
            if kvals.length = 0 then Value.vNull
            else .vFloat (kvals.sum / (kvals.length : ℚ)),
            .vInt (kvals.length : Int)]) := by
  have hdisp := createChart_standard_dispatch eng colors kpi chart_type (some g)
    sec cb lbl hct
  have hstd := createStandardChart_grouped eng kpi chart_type g cb sec hg hct
    kIdx gIdx hk hgi
  rw [hstd] at hdisp
  refine ⟨applyColorMode eng colors
      (pxFig (groupAgg (widenF16 (widenF16 eng.df kpi) g) gIdx kIdx g kpi)
        (some g) (some (kpi ++ "_mean")) (cleanSelect cb) (kpi ++ " by " ++ g)),
    groupAgg (widenF16 (widenF16 eng.df kpi) g) gIdx kIdx g kpi,
    hdisp, ?_, ?_, ?_, ?_, ?_⟩
  · exact (applyColorMode_fields eng colors _).2.2.1
  · exact (applyColorMode_fields eng colors _).2.2.2.1
  · exact (applyColorMode_fields eng colors _).2.2.2.2
  · rfl
  · show (groupAgg (widenF16 (widenF16 eng.df kpi) g) gIdx kIdx g kpi).rows = _
    unfold groupAgg
    rw [widenF16_colValues, widenF16_colValues, widenF16_rows, widenF16_rows]

/-- C2 witness: bar chart over two regions gives exactly two categories,
each carrying that region's mean of the kpi. -/
theorem standard_chart_group_aggregation_witness :
    (("Bar" : String) = "Bar" ∨ ("Bar" : String) = "Line" ∨ ("Bar" : String) = "Area") ∧
      ("region" : String) ≠ "None" ∧
      engWitness.df.colIdx "sales" = some 1 ∧
      engWitness.df.colIdx "region" = some 0 ∧
      (∃ fig d, createChart engWitness [] "sales" "Bar" (some "region") none none
          none = .ok fig ∧
        fig.data = some d ∧ fig.xCol = some "region" ∧
        fig.yCol = some ("sales" ++ "_mean") ∧
        d.cols = ["region", "sales" ++ "_sum", "sales" ++ "_mean", "sales" ++ "_count"] ∧
        d.rows = (dedupFirst ((engWitness.df.colValues 0).filter
            (fun v => v ≠ .vNull))).map
          (fun v =>
            let kvals := (engWitness.df.rows.filter
                (fun row => cellAt row 0 = v)).filterMap
              (fun row => (cellAt row 1).toQ)
            [v, .vFloat kvals.sum,
              if kvals.length = 0 then Value.vNull
              else .vFloat (kvals.sum / (kvals.length : ℚ)),
              .vInt (kvals.length : Int)])) ∧
      ((createChart engWitness [] "sales" "Bar" (some "region") none none
          none).map (fun fig => fig.data.map Frame.rows) =
        .ok (some [[.vStr "East", .vFloat 10, .vFloat 10, .vInt 1],
                   [.vStr "West", .vFloat 20, .vFloat 20, .vInt 1]])) :=
  ⟨Or.inl rfl, by decide, rfl, rfl,
    standard_chart_group_aggregation engWitness [] "sales" "region" "Bar" none none
      none (Or.inl rfl) (by decide) 1 0 rfl rfl,
    by decide⟩

/-- C2 counterexample: a Scatter chart with group_by set computes the
aggregation but then plots the raw table with the kpi on the x-axis, not
the per-group mean with the group column on the x-axis. -/
theorem scatter_group_by_not_aggregated :
    (createChart engWitness [] "sales" "Scatter" (some "region") none none
        none).map Fig.xCol = .ok (some "sales") ∧
      some "sales" ≠ some "region" ∧
      (createChart engWitness [] "sales" "Scatter" (some "region") none none
          none).map Fig.data = .ok (some engWitness.df) := by
  refine ⟨by rfl, by decide, by rfl⟩

/-! ## C5: integer downcasting -/

lemma int64Tier_eq_smallestStrictTier (cmin cmax : ℚ) :
    int64Tier cmin cmax = smallestStrictTier cmin cmax := by
  unfold int64Tier smallestStrictTier
  simp only [List.find?, intWidth]
  norm_num
  by_cases h8 : -128 < cmin ∧ cmax < (127 : ℚ)
  · rw [if_pos h8, decide_eq_true h8.1, decide_eq_true h8.2]
    rfl
  · rw [if_neg h8]
    have h8b : (decide (-128 < cmin) && decide (cmax < (127 : ℚ))) = false := by
      rcases not_and_or.mp h8 with h | h <;> simp [decide_eq_false h]
    rw [h8b]
    by_cases h16 : -32768 < cmin ∧ cmax < (32767 : ℚ)
    · rw [if_pos h16, decide_eq_true h16.1, decide_eq_true h16.2]
      rfl
    · rw [if_neg h16]
      have h16b : (decide (-32768 < cmin) && decide (cmax < (32767 : ℚ))) = false := by
        rcases not_and_or.mp h16 with h | h <;> simp [decide_eq_false h]
      rw [h16b]
      by_cases h32 : -2147483648 < cmin ∧ cmax < (2147483647 : ℚ)
      · rw [if_pos h32, decide_eq_true h32.1, decide_eq_true h32.2]
        rfl
      · rw [if_neg h32]
        have h32b : (decide (-2147483648 < cmin) &&
            decide (cmax < (2147483647 : ℚ))) = false := by
          rcases not_and_or.mp h32 with h | h <;> simp [decide_eq_false h]
        rw [h32b]

lemma foldl_min_le (qs : List ℚ) :
    ∀ (q x : ℚ), x ∈ q :: qs → qs.foldl min q ≤ x := by
  induction qs with
  | nil =>
      intro q x hx
      have hx2 : x = q := by simpa using hx
      rw [hx2]
      exact le_refl q
  | cons q2 qs ih =>
      intro q x hx
      rcases List.mem_cons.mp hx with h | hx2
      · subst h
        exact le_trans (ih (min x q2) (min x q2) (List.mem_cons_self _ _))
          (min_le_left _ _)
      · rcases List.mem_cons.mp hx2 with h | h
        · subst h
          exact le_trans (ih (min q x) (min q x) (List.mem_cons_self _ _))
            (min_le_right _ _)
        · exact ih (min q q2) x (List.mem_cons_of_mem _ h)

lemma le_foldl_max (qs : List ℚ) :
    ∀ (q x : ℚ), x ∈ q :: qs → x ≤ qs.foldl max q := by
  induction qs with
  | nil =>
      intro q x hx
      have hx2 : x = q := by simpa using hx
      rw [hx2]
      exact le_refl q
  | cons q2 qs ih =>
      intro q x hx
      rcases List.mem_cons.mp hx with h | hx2
      · subst h
        exact le_trans (le_max_left _ _)
          (ih (max x q2) (max x q2) (List.mem_cons_self _ _))
      · rcases List.mem_cons.mp hx2 with h | h
        · subst h
          exact le_trans (le_max_right _ _)
            (ih (max q x) (max q x) (List.mem_cons_self _ _))
        · exact ih (max q q2) x (List.mem_cons_of_mem _ h)

/-- The observed min and max really bound every numeric value of the
column. -/
lemma colMinMax_bounds (vals : List Value) (cmin cmax : ℚ)
    (h : colMinMax vals = some (cmin, cmax)) :
    ∀ q ∈ vals.filterMap Value.toQ, cmin ≤ q ∧ q ≤ cmax := by
  intro q hq
  unfold colMinMax at h
  rcases hfm : vals.filterMap Value.toQ with _ | ⟨q0, qs⟩
  · rw [hfm] at h
    cases h
  · rw [hfm] at h hq
    simp only [Option.some.injEq, Prod.mk.injEq] at h
    exact ⟨h.1 ▸ foldl_min_le qs q0 q hq, h.2 ▸ le_foldl_max qs q0 q hq⟩

lemma wrapInt_eq_self (w : Nat) (k : Int) (hw : 1 ≤ w)
    (h1 : -(2 ^ (w - 1)) ≤ k) (h2 : k < 2 ^ (w - 1)) : wrapInt w k = k := by
  unfold wrapInt
  have hsplit : (2 : Int) ^ w = 2 ^ (w - 1) * 2 := by
    have hw1 : w - 1 + 1 = w := by omega
    conv_lhs => rw [← hw1]
    rw [pow_succ]
  have hpos : (0 : Int) < 2 ^ (w - 1) := pow_pos (by omega) _
  have hmod : (k + 2 ^ (w - 1)) % 2 ^ w = k + 2 ^ (w - 1) :=
    Int.emod_eq_of_lt (by omega) (by omega)
  rw [hmod]
  omega

/-- Under the strict tier bounds, astype is the identity on every cell of
the column. -/
lemma astype_map_id (vals : List Value) (cmin cmax : ℚ) (w : Nat) (hw : 1 ≤ w)
    (hb : colMinMax vals = some (cmin, cmax))
    (h1 : -((2 : ℚ) ^ (w - 1)) < cmin) (h2 : cmax < (2 : ℚ) ^ (w - 1) - 1) :
    vals.map (astypeIntVal w) = vals := by
  have hall := colMinMax_bounds vals cmin cmax hb
  conv_rhs => rw [← List.map_id vals]
  apply List.map_congr_left
  intro v hv
  cases v with
  | vInt k =>
      have hkmem : ((k : ℚ)) ∈ vals.filterMap Value.toQ :=
        List.mem_filterMap.mpr ⟨.vInt k, hv, rfl⟩
      obtain ⟨hk1, hk2⟩ := hall _ hkmem
      have hlow : -((2 : ℤ) ^ (w - 1)) ≤ k := by
        have h3 := le_of_lt (lt_of_lt_of_le h1 hk1)
        exact_mod_cast h3
      have hhigh : k < (2 : ℤ) ^ (w - 1) := by
        have h3 : (k : ℚ) < (2 : ℚ) ^ (w - 1) - 1 := lt_of_le_of_lt hk2 h2
        have h4 : (k : ℚ) < (2 : ℚ) ^ (w - 1) := by linarith
        exact_mod_cast h4
      show astypeIntVal w (.vInt k) = id (.vInt k)
      simp [astypeIntVal, wrapInt_eq_self w k hw hlow hhigh]
  | vFloat q => rfl
  | vStr s => rfl
  | vNull => rfl

lemma getD_set_ne {α : Type} (l : List α) (i j : Nat) (v d : α) (h : j ≠ i) :
    (l.set i v).getD j d = l.getD j d := by
  simp [List.getD_eq_getElem?_getD, List.getElem?_set_ne (Ne.symm h)]

lemma cellAt_set_ne (r : List Value) (i j : Nat) (v : Value) (h : j ≠ i) :
    cellAt (r.set i v) j = cellAt r j :=
  getD_set_ne r i j v .vNull h

lemma cellAt_set_self (r : List Value) (i : Nat) :
    cellAt (r.set i (cellAt r i)) i = cellAt r i := by
  by_cases h : i < r.length
  · simp [cellAt, List.getD_eq_getElem?_getD, List.getElem?_set_eq h]
  · rw [List.set_eq_of_length_le (by omega)]

lemma map_cellAt_zip_set_ne (i j : Nat) (hne : j ≠ i) :
    ∀ (rows : List (List Value)) (col : List Value), col.length = rows.length →
      ((rows.zip col).map (fun p => p.1.set i p.2)).map (fun r => cellAt r j) =
        rows.map (fun r => cellAt r j) := by
  intro rows
  induction rows with
  | nil =>
      intro col _
      simp
  | cons r rs ih =>
      intro col hlen
      cases col with
      | nil => simp at hlen
      | cons c cs =>
          simp only [List.zip_cons_cons, List.map_cons]
          rw [cellAt_set_ne r i j c hne]
          congr 1
          exact ih cs (by simpa using hlen)

lemma colValues_setColumn_ne (d : Frame) (i : Nat) (col : List Value) (j : Nat)
    (hne : j ≠ i) (hlen : col.length = d.rows.length) :
    (setColumn d i col).colValues j = d.colValues j :=
  map_cellAt_zip_set_ne i j hne d.rows col hlen

lemma map_cellAt_zip_set_self (i : Nat) :
    ∀ rows : List (List Value),
      ((rows.zip (rows.map (fun r => cellAt r i))).map
          (fun p => p.1.set i p.2)).map (fun r => cellAt r i) =
        rows.map (fun r => cellAt r i) := by
  intro rows
  induction rows with
  | nil => simp
  | cons r rs ih =>
      simp only [List.map_cons, List.zip_cons_cons]
      rw [cellAt_set_self r i]
      exact congrArg (cellAt r i :: ·) ih

lemma colValues_setColumn_self (d : Frame) (i : Nat) :
    (setColumn d i (d.colValues i)).colValues i = d.colValues i :=
  map_cellAt_zip_set_self i d.rows

lemma dtypeAt_setDtype_self (d : Frame) (i : Nat) (t : DType)
    (hi : i < d.dtypes.length) : (setDtype d i t).dtypeAt i = t := by
  simp [setDtype, Frame.dtypeAt, List.getD_eq_getElem?_getD, List.getElem?_set_eq hi]

lemma dtypeAt_setDtype_ne (d : Frame) (i : Nat) (t : DType) (j : Nat) (h : j ≠ i) :
    (setDtype d i t).dtypeAt j = d.dtypeAt j :=
  getD_set_ne d.dtypes i j t .object h

lemma lt_dtypes_length_of_ne_object (d : Frame) (i : Nat)
    (h : d.dtypeAt i ≠ .object) : i < d.dtypes.length := by
  by_contra hc
  push_neg at hc
  rw [Frame.dtypeAt, List.getD_eq_default _ _ hc] at h
  exact h rfl

lemma int64Tier_ne_object (cmin cmax : ℚ) : int64Tier cmin cmax ≠ .object := by
  unfold int64Tier
  split_ifs <;> decide

/-- When the code downcasts, the chosen tier strictly bounds the observed
extremes. -/
lemma int64Tier_strict_bounds (cmin cmax : ℚ) (h : int64Tier cmin cmax ≠ .int64) :
    1 ≤ intWidth (int64Tier cmin cmax) ∧
      -((2 : ℚ) ^ (intWidth (int64Tier cmin cmax) - 1)) < cmin ∧
      cmax < (2 : ℚ) ^ (intWidth (int64Tier cmin cmax) - 1) - 1 := by
  unfold int64Tier at h ⊢
  split_ifs with h8 h16 h32
  · refine ⟨by norm_num [intWidth], ?_, ?_⟩
    · norm_num [intWidth]
      linarith [h8.1]
    · norm_num [intWidth]
      linarith [h8.2]
  · refine ⟨by norm_num [intWidth], ?_, ?_⟩
    · norm_num [intWidth]
      linarith [h16.1]
    · norm_num [intWidth]
      linarith [h16.2]
  · refine ⟨by norm_num [intWidth], ?_, ?_⟩
    · norm_num [intWidth]
      linarith [h32.1]
    · norm_num [intWidth]
      linarith [h32.2]
  · rw [if_neg h8, if_neg h16, if_neg h32] at h
    exact absurd rfl h

/-- Let-free characterization of optimizeNumericStep (definitional). -/
lemma optimizeNumericStep_eq (d : Frame) (j : Nat) :
    optimizeNumericStep d j =
      match d.dtypeAt j with
      | .int64 =>
          match colMinMax (d.colValues j) with
          | none => d
          | some (cmin, cmax) =>
              if int64Tier cmin cmax = .int64 then d
              else setDtype (setColumn d j ((d.colValues j).map
                (astypeIntVal (intWidth (int64Tier cmin cmax))))) j
                (int64Tier cmin cmax)
      | .float64 =>
          match colMinMax (d.colValues j) with
          | none => d
          | some (cmin, cmax) =>
              if float64Tier cmin cmax = .float64 then d
              else setDtype d j (float64Tier cmin cmax)
      | _ => d := rfl

/-- The int64 iteration of the numeric loop: dtype moves to the code tier
and no cell changes. -/
lemma optimizeNumericStep_int64 (d : Frame) (i : Nat) (hdt : d.dtypeAt i = .int64)
    (cmin cmax : ℚ) (hmm : colMinMax (d.colValues i) = some (cmin, cmax)) :
    (optimizeNumericStep d i).dtypeAt i = int64Tier cmin cmax ∧
      (optimizeNumericStep d i).colValues i = d.colValues i := by
  have hlen : i < d.dtypes.length :=
    lt_dtypes_length_of_ne_object d i (by rw [hdt]; decide)
  have heq : optimizeNumericStep d i =
      if int64Tier cmin cmax = .int64 then d
      else setDtype (setColumn d i ((d.colValues i).map
        (astypeIntVal (intWidth (int64Tier cmin cmax))))) i (int64Tier cmin cmax) := by
    rw [optimizeNumericStep_eq, hdt, hmm]
  rw [heq]
  by_cases ht : int64Tier cmin cmax = .int64
  · rw [if_pos ht]
    exact ⟨hdt.trans ht.symm, rfl⟩
  · rw [if_neg ht]
    obtain ⟨hw, hb1, hb2⟩ := int64Tier_strict_bounds cmin cmax ht
    have hmap : (d.colValues i).map (astypeIntVal (intWidth (int64Tier cmin cmax))) =
        d.colValues i :=
      astype_map_id (d.colValues i) cmin cmax _ hw hmm hb1 hb2
    constructor
    · exact dtypeAt_setDtype_self _ i _ (by simpa [setColumn] using hlen)
    · show (setColumn d i ((d.colValues i).map
          (astypeIntVal (intWidth (int64Tier cmin cmax))))).colValues i =
        d.colValues i
      rw [hmap]
      exact colValues_setColumn_self d i

/-- Numeric-loop iterations on other columns leave column i untouched. -/
lemma optimizeNumericStep_ne (d : Frame) (j i : Nat) (hne : i ≠ j) :
    (optimizeNumericStep d j).dtypeAt i = d.dtypeAt i ∧
      (optimizeNumericStep d j).colValues i = d.colValues i := by
  rw [optimizeNumericStep_eq]
  constructor
  · split
    · split
      · rfl
      · split
        · rfl
        · exact dtypeAt_setDtype_ne _ j _ i hne
    · split
      · rfl
      · split
        · rfl
        · exact dtypeAt_setDtype_ne _ j _ i hne
    · rfl
  · split
    · split
      · rfl
      · split
        · rfl
        · show (setColumn d j _).colValues i = d.colValues i
          exact colValues_setColumn_ne d j _ i hne (by simp [Frame.colValues])
    · split
      · rfl
      · split
        · rfl
        · rfl
    · rfl

/-- Let-free characterization of optimizeObjectStep (definitional). -/
lemma optimizeObjectStep_eq (d : Frame) (j : Nat) :
    optimizeObjectStep d j =
      if d.dtypeAt j = .object then
        if 2 * (dedupFirst (d.colValues j)).length < (d.colValues j).length then
          setDtype d j .category
        else d
      else d := rfl

/-- Object-loop iterations on other columns leave column i untouched. -/
lemma optimizeObjectStep_ne (d : Frame) (j i : Nat) (hne : i ≠ j) :
    (optimizeObjectStep d j).dtypeAt i = d.dtypeAt i ∧
      (optimizeObjectStep d j).colValues i = d.colValues i := by
  rw [optimizeObjectStep_eq]
  split_ifs
  · exact ⟨dtypeAt_setDtype_ne _ j _ i hne, rfl⟩
  · exact ⟨rfl, rfl⟩
  · exact ⟨rfl, rfl⟩

lemma foldl_step_preserves (step : Frame → Nat → Frame) (i : Nat)
    (hstep : ∀ d j, j ≠ i → (step d j).dtypeAt i = d.dtypeAt i ∧
      (step d j).colValues i = d.colValues i) :
    ∀ (l : List Nat) (d : Frame), (∀ j ∈ l, j ≠ i) →
      (l.foldl step d).dtypeAt i = d.dtypeAt i ∧
        (l.foldl step d).colValues i = d.colValues i := by
  intro l
  induction l with
  | nil => exact fun d _ => ⟨rfl, rfl⟩
  | cons j rest ih =>
      intro d hl
      have hj := hstep d j (hl j (List.mem_cons_self _ _))
      have hrest := ih (step d j) (fun x hx => hl x (List.mem_cons_of_mem _ hx))
      exact ⟨hrest.1.trans hj.1, hrest.2.trans hj.2⟩

/-- Let-free characterization of _optimize_data_types (definitional). -/
lemma optimizeDataTypes_eq (df : Frame) :
    optimizeDataTypes df =
      ((List.range ((((List.range df.cols.length).filter
          (fun k => df.dtypeAt k = DType.int64 || df.dtypeAt k = DType.float64)).foldl
            optimizeNumericStep df)).cols.length).filter
        (fun k => ((((List.range df.cols.length).filter
          (fun k2 => df.dtypeAt k2 = DType.int64 || df.dtypeAt k2 = DType.float64)).foldl
            optimizeNumericStep df)).dtypeAt k = DType.object)).foldl
        optimizeObjectStep
        (((List.range df.cols.length).filter
          (fun k => df.dtypeAt k = DType.int64 || df.dtypeAt k = DType.float64)).foldl
            optimizeNumericStep df) := rfl

/-- C5 (amended) theorem: for an int64 column, _optimize_data_types moves
the dtype to the smallest signed tier that STRICTLY contains the observed
min and max (exclusive at the type bounds — the code compares with < against
iinfo min/max), and no cell of the column changes. -/
theorem optimize_int64_downcast (df : Frame) (i : Nat) (hi : i < df.cols.length)
    (hdt : df.dtypeAt i = .int64) (cmin cmax : ℚ)
    (hmm : colMinMax (df.colValues i) = some (cmin, cmax)) :
    (optimizeDataTypes df).dtypeAt i = smallestStrictTier cmin cmax ∧
      (optimizeDataTypes df).colValues i = df.colValues i := by
  have hmem : i ∈ (List.range df.cols.length).filter
      (fun k => df.dtypeAt k = DType.int64 || df.dtypeAt k = DType.float64) := by
    rw [List.mem_filter]
    refine ⟨List.mem_range.mpr hi, ?_⟩
    rw [hdt]
    simp
  obtain ⟨l1, l2, hsplit⟩ := List.append_of_mem hmem
  have hnd : ((List.range df.cols.length).filter
      (fun k => df.dtypeAt k = DType.int64 || df.dtypeAt k = DType.float64)).Nodup :=
    (List.nodup_range _).filter _
  rw [hsplit] at hnd
  have hnotl1 : i ∉ l1 := by
    intro hc
    exact (List.disjoint_of_nodup_append hnd) hc (List.mem_cons_self _ _)
  have hnotl2 : i ∉ l2 :=
    (List.nodup_cons.mp (List.nodup_append.mp hnd).2.1).1
  have h1 := foldl_step_preserves optimizeNumericStep i
    (fun d j hj => optimizeNumericStep_ne d j i (Ne.symm hj)) l1 df
    (fun j hj => fun he => hnotl1 (he ▸ hj))
  have hstep := optimizeNumericStep_int64 (l1.foldl optimizeNumericStep df) i
    (h1.1.trans hdt) cmin cmax (by rw [h1.2]; exact hmm)
  have h2 := foldl_step_preserves optimizeNumericStep i
    (fun d j hj => optimizeNumericStep_ne d j i (Ne.symm hj)) l2
    (optimizeNumericStep (l1.foldl optimizeNumericStep df) i)
    (fun j hj => fun he => hnotl2 (he ▸ hj))
  have hfold : ((List.range df.cols.length).filter
      (fun k => df.dtypeAt k = DType.int64 || df.dtypeAt k = DType.float64)).foldl
        optimizeNumericStep df =
      l2.foldl optimizeNumericStep
        (optimizeNumericStep (l1.foldl optimizeNumericStep df) i) := by
    rw [hsplit, List.foldl_append, List.foldl_cons]
  have hdf1dt : (((List.range df.cols.length).filter
      (fun k => df.dtypeAt k = DType.int64 || df.dtypeAt k = DType.float64)).foldl
        optimizeNumericStep df).dtypeAt i = int64Tier cmin cmax := by
    rw [hfold]
    exact h2.1.trans hstep.1
  have hdf1cv : (((List.range df.cols.length).filter
      (fun k => df.dtypeAt k = DType.int64 || df.dtypeAt k = DType.float64)).foldl
        optimizeNumericStep df).colValues i = df.colValues i := by
    rw [hfold]
    exact (h2.2.trans hstep.2).trans h1.2
  rw [optimizeDataTypes_eq]
  have hobj := foldl_step_preserves optimizeObjectStep i
    (fun d j hj => optimizeObjectStep_ne d j i (Ne.symm hj))
    ((List.range ((((List.range df.cols.length).filter
      (fun k => df.dtypeAt k = DType.int64 || df.dtypeAt k = DType.float64)).foldl
        optimizeNumericStep df)).cols.length).filter
      (fun k => ((((List.range df.cols.length).filter
        (fun k2 => df.dtypeAt k2 = DType.int64 || df.dtypeAt k2 = DType.float64)).foldl
          optimizeNumericStep df)).dtypeAt k = DType.object))
    (((List.range df.cols.length).filter
      (fun k => df.dtypeAt k = DType.int64 || df.dtypeAt k = DType.float64)).foldl
        optimizeNumericStep df)
    (fun j hj => by
      intro he
      subst he
      have hob := (List.mem_filter.mp hj).2
      simp only [decide_eq_true_eq] at hob
      rw [hdf1dt] at hob
      exact int64Tier_ne_object cmin cmax hob)
  refine ⟨?_, ?_⟩
  · rw [hobj.1, hdf1dt]
    exact int64Tier_eq_smallestStrictTier cmin cmax
  · rw [hobj.2, hdf1cv]

/-- C5 counterexample: int8 contains the observed range {0, 127}, so the
smallest containing width is 8 bits, but the strict comparison against
iinfo(int8).max makes the code pick int16. -/
theorem optimize_int64_not_smallest_containing :
    colMinMax (dfInt127.colValues 0) = some (0, 127) ∧
      smallestContainingTier 0 127 = DType.int8 ∧
      (optimizeDataTypes dfInt127).dtypeAt 0 = DType.int16 ∧
      DType.int16 ≠ DType.int8 := by
  refine ⟨by decide, ?_, by decide, by decide⟩
  unfold smallestContainingTier
  norm_num

/-- C5 witness: the amended theorem evaluated on the 0/127 column. -/
theorem optimize_int64_downcast_witness :
    (0 < dfInt127.cols.length ∧ dfInt127.dtypeAt 0 = DType.int64 ∧
      colMinMax (dfInt127.colValues 0) = some (0, 127)) ∧
    ((optimizeDataTypes dfInt127).dtypeAt 0 = smallestStrictTier 0 127 ∧
      (optimizeDataTypes dfInt127).colValues 0 = dfInt127.colValues 0) :=
  ⟨⟨by decide, by decide, by decide⟩,
    optimize_int64_downcast dfInt127 0 (by decide) (by decide) 0 127 (by decide)⟩

/-! ## C1: shape contract of clean_data -/

lemma dedupFirstAux_length_le {α : Type} [DecidableEq α] :
    ∀ (l seen : List α), (dedupFirstAux seen l).length ≤ l.length := by
  intro l
  induction l with
  | nil =>
      intro seen
      simp [dedupFirstAux]
  | cons x xs ih =>
      intro seen
      unfold dedupFirstAux
      split_ifs
      · exact le_trans (ih seen) (Nat.le_succ _)
      · simpa using Nat.succ_le_succ (ih (x :: seen))

lemma ffill_aux_length :
    ∀ (vals : List Value) (acc : List Value × Value),
      ((vals.foldl (fun (acc : List Value × Value) v =>
        match v with
        | .vNull => (acc.1 ++ [acc.2], acc.2)
        | w => (acc.1 ++ [w], w)) acc).1).length = acc.1.length + vals.length := by
  intro vals
  induction vals with
  | nil =>
      intro acc
      simp
  | cons v vs ih =>
      intro acc
      cases v <;> simp [ih, List.length_append] <;> omega

lemma ffill_length (vals : List Value) : (ffill vals).length = vals.length := by
  unfold ffill
  rw [ffill_aux_length]
  simp

lemma fillColumnVals_length (dt : DType) (vals : List Value) :
    (fillColumnVals dt vals).length = vals.length := by
  unfold fillColumnVals
  cases dt
  case int64 => cases hm : medianQ vals <;> simp [hm]
  case float64 => cases hm : medianQ vals <;> simp [hm]
  case object => cases hm : modeVal vals <;> simp [hm]
  all_goals exact ffill_length vals

lemma colValues_length (d : Frame) (i : Nat) :
    (d.colValues i).length = d.rows.length := by
  simp [Frame.colValues]

lemma setColumn_rows_length (d : Frame) (i : Nat) (col : List Value)
    (hlen : col.length = d.rows.length) :
    (setColumn d i col).rows.length = d.rows.length := by
  simp [setColumn, List.length_zip, hlen]

lemma fillColumnStep_shape (d : Frame) (i : Nat) :
    (fillColumnStep d i).cols = d.cols ∧
      (fillColumnStep d i).rows.length = d.rows.length := by
  refine ⟨rfl, ?_⟩
  unfold fillColumnStep
  exact setColumn_rows_length d i _
    ((fillColumnVals_length _ _).trans (colValues_length d i))

lemma foldl_cols_rows_eq (step : Frame → Nat → Frame)
    (h : ∀ d j, (step d j).cols = d.cols ∧ (step d j).rows.length = d.rows.length) :
    ∀ (l : List Nat) (d : Frame),
      (l.foldl step d).cols = d.cols ∧
        (l.foldl step d).rows.length = d.rows.length := by
  intro l
  induction l with
  | nil => exact fun d => ⟨rfl, rfl⟩
  | cons j rest ih =>
      intro d
      have h1 := h d j
      have h2 := ih (step d j)
      exact ⟨h2.1.trans h1.1, h2.2.trans h1.2⟩

lemma foldl_cols_rows_le (step : Frame → Nat → Frame)
    (h : ∀ d j, (step d j).cols = d.cols ∧ (step d j).rows.length ≤ d.rows.length) :
    ∀ (l : List Nat) (d : Frame),
      (l.foldl step d).cols = d.cols ∧
        (l.foldl step d).rows.length ≤ d.rows.length := by
  intro l
  induction l with
  | nil => exact fun d => ⟨rfl, le_refl _⟩
  | cons j rest ih =>
      intro d
      have h1 := h d j
      have h2 := ih (step d j)
      exact ⟨h2.1.trans h1.1, le_trans h2.2 h1.2⟩

lemma handleDuplicates_shape (d : Frame) :
    (handleDuplicates d).cols = d.cols ∧
      (handleDuplicates d).rows.length ≤ d.rows.length :=
  ⟨rfl, dedupFirstAux_length_le d.rows []⟩

lemma handleMissingValues_shape (d : Frame) :
    (handleMissingValues d).cols = d.cols ∧
      (handleMissingValues d).rows.length = d.rows.length :=
  foldl_cols_rows_eq fillColumnStep fillColumnStep_shape (missingIdx d) d

lemma optimizeNumericStep_shape (d : Frame) (j : Nat) :
    (optimizeNumericStep d j).cols = d.cols ∧
      (optimizeNumericStep d j).rows.length = d.rows.length := by
  rw [optimizeNumericStep_eq]
  constructor
  · split
    · split
      · rfl
      · split
        · rfl
        · rfl
    · split
      · rfl
      · split <;> rfl
    · rfl
  · split
    · split
      · rfl
      · split
        · rfl
        · show (setColumn d j _).rows.length = d.rows.length
          exact setColumn_rows_length d j _
            ((List.length_map _ _).trans (colValues_length d j))
    · split
      · rfl
      · split <;> rfl
    · rfl

lemma optimizeObjectStep_shape (d : Frame) (j : Nat) :
    (optimizeObjectStep d j).cols = d.cols ∧
      (optimizeObjectStep d j).rows.length = d.rows.length := by
  rw [optimizeObjectStep_eq]
  split_ifs <;> exact ⟨rfl, rfl⟩

lemma optimizeDataTypes_shape (d : Frame) :
    (optimizeDataTypes d).cols = d.cols ∧
      (optimizeDataTypes d).rows.length = d.rows.length := by
  rw [optimizeDataTypes_eq]
  have h1 := foldl_cols_rows_eq optimizeNumericStep optimizeNumericStep_shape
    ((List.range d.cols.length).filter
      (fun k => d.dtypeAt k = DType.int64 || d.dtypeAt k = DType.float64)) d
  have h2 := foldl_cols_rows_eq optimizeObjectStep optimizeObjectStep_shape
    ((List.range ((((List.range d.cols.length).filter
      (fun k => d.dtypeAt k = DType.int64 || d.dtypeAt k = DType.float64)).foldl
        optimizeNumericStep d)).cols.length).filter
      (fun k => ((((List.range d.cols.length).filter
        (fun k2 => d.dtypeAt k2 = DType.int64 || d.dtypeAt k2 = DType.float64)).foldl
          optimizeNumericStep d)).dtypeAt k = DType.object))
    (((List.range d.cols.length).filter
      (fun k => d.dtypeAt k = DType.int64 || d.dtypeAt k = DType.float64)).foldl
        optimizeNumericStep d)
  exact ⟨h2.1.trans h1.1, h2.2.trans h1.2⟩

/-- Let-free characterization of the iqr loop body (definitional). -/
lemma iqrStep_eq (t : ℚ) (d : Frame) (i : Nat) :
    iqrStep t d i =
      match iqrBounds (d.colValues i) t with
      | none => d
      | some (lb, ub) =>
          if (d.rows.filter (fun r => iqrMask lb ub (cellAt r i))).length > 0 then
            { d with rows := d.rows.filter (fun r => ¬ iqrMask lb ub (cellAt r i)) }
          else d := rfl

/-- Let-free characterization of the zscore loop body (definitional). -/
lemma zscoreStep_eq (t : ℚ) (d : Frame) (i : Nat) :
    zscoreStep t d i =
      match sampleVar (d.colValues i) with
      | none => d
      | some (mean, v) =>
          if (d.rows.filter (fun r =>
              match (cellAt r i).toQ with
              | some q => decide ((q - mean) ^ 2 > t ^ 2 * v)
              | none => false)).length > 0 then
            { d with rows := d.rows.filter (fun r => ¬ (match (cellAt r i).toQ with
                | some q => decide ((q - mean) ^ 2 > t ^ 2 * v)
                | none => false) = true) }
          else d := rfl

lemma iqrStep_shape (t : ℚ) (d : Frame) (i : Nat) :
    (iqrStep t d i).cols = d.cols ∧ (iqrStep t d i).rows.length ≤ d.rows.length := by
  rw [iqrStep_eq]
  constructor
  · split
    · rfl
    · split <;> rfl
  · split
    · exact le_refl _
    · split
      · exact List.length_filter_le _ _
      · exact le_refl _

lemma zscoreStep_shape (t : ℚ) (d : Frame) (i : Nat) :
    (zscoreStep t d i).cols = d.cols ∧
      (zscoreStep t d i).rows.length ≤ d.rows.length := by
  rw [zscoreStep_eq]
  constructor
  · split
    · rfl
    · split <;> rfl
  · split
    · exact le_refl _
    · split
      · exact List.length_filter_le _ _
      · exact le_refl _

lemma handleOutliers_shape (d : Frame) (m : OutlierMethod) (t : ℚ) :
    (handleOutliers d m t).cols = d.cols ∧
      (handleOutliers d m t).rows.length ≤ d.rows.length := by
  unfold handleOutliers
  cases m with
  | iqr => exact foldl_cols_rows_le _ (fun d2 j => iqrStep_shape t d2 j) _ d
  | zscore => exact foldl_cols_rows_le _ (fun d2 j => zscoreStep_shape t d2 j) _ d
  | otherMethod => exact ⟨rfl, le_refl _⟩

/-- The non-error branch of clean_data is the staged pipeline. -/
lemma cleanData_eq_ok (df : Frame) (cfg : CleanConfig) (hne : df.empty = false) :
    cleanData df cfg = .ok (stage5 df cfg) := by
  unfold cleanData stage5 stage4 stage3 stage2 stage1
  rw [hne]
  simp

/-- C1 theorem: for a non-empty input, clean_data succeeds; the output has
at most as many rows as the input; its columns are exactly the input's
columns, normalized when the name-cleaning toggle is on; and when both
row-dropping steps (duplicates and outliers) are disabled the row count is
exactly preserved — in particular outlier removal is not silently applied
when disabled. -/
theorem clean_data_shape_contract (df : Frame) (cfg : CleanConfig)
    (hne : df.empty = false) :
    ∃ out, cleanData df cfg = .ok out ∧
      out.rows.length ≤ df.rows.length ∧
      out.cols = (if cfg.clean_columns then df.cols.map normalizeName else df.cols) ∧
      (cfg.handle_duplicates = false → cfg.remove_outliers = false →
        out.rows.length = df.rows.length) := by
  refine ⟨stage5 df cfg, cleanData_eq_ok df cfg hne, ?_, ?_, ?_⟩
  all_goals
    have p1c : (stage1 df cfg).cols =
        (if cfg.clean_columns then df.cols.map normalizeName else df.cols) := by
      unfold stage1
      cases cfg.clean_columns <;> simp [cleanColumnNames]
    have p1r : (stage1 df cfg).rows = df.rows := by
      unfold stage1
      cases cfg.clean_columns <;> simp [cleanColumnNames]
    have p2c : (stage2 df cfg).cols = (stage1 df cfg).cols := by
      unfold stage2
      cases cfg.handle_duplicates <;>
        simp [(handleDuplicates_shape (stage1 df cfg)).1]
    have p2r : (stage2 df cfg).rows.length ≤ (stage1 df cfg).rows.length := by
      unfold stage2
      cases cfg.handle_duplicates <;>
        simp [(handleDuplicates_shape (stage1 df cfg)).2]
    have p2req : cfg.handle_duplicates = false →
        (stage2 df cfg).rows.length = (stage1 df cfg).rows.length := by
      intro h
      unfold stage2
      rw [h]
      simp
    have p3c : (stage3 df cfg).cols = (stage2 df cfg).cols := by
      unfold stage3
      cases cfg.handle_missing <;>
        simp [(handleMissingValues_shape (stage2 df cfg)).1]
    have p3r : (stage3 df cfg).rows.length = (stage2 df cfg).rows.length := by
      unfold stage3
      cases cfg.handle_missing <;>
        simp [(handleMissingValues_shape (stage2 df cfg)).2]
    have p4c : (stage4 df cfg).cols = (stage3 df cfg).cols := by
      unfold stage4
      cases cfg.optimize_types <;>
        simp [(optimizeDataTypes_shape (stage3 df cfg)).1]
    have p4r : (stage4 df cfg).rows.length = (stage3 df cfg).rows.length := by
      unfold stage4
      cases cfg.optimize_types <;>
        simp [(optimizeDataTypes_shape (stage3 df cfg)).2]
    have p5c : (stage5 df cfg).cols = (stage4 df cfg).cols := by
      unfold stage5
      cases cfg.remove_outliers <;>
        simp [(handleOutliers_shape (stage4 df cfg) cfg.outlier_method
          cfg.outlier_threshold).1]
    have p5r : (stage5 df cfg).rows.length ≤ (stage4 df cfg).rows.length := by
      unfold stage5
      cases cfg.remove_outliers <;>
        simp [(handleOutliers_shape (stage4 df cfg) cfg.outlier_method
          cfg.outlier_threshold).2]
    have p5req : cfg.remove_outliers = false →
        (stage5 df cfg).rows.length = (stage4 df cfg).rows.length := by
      intro h
      unfold stage5
      rw [h]
      simp
  · calc (stage5 df cfg).rows.length
        ≤ (stage4 df cfg).rows.length := p5r
      _ = (stage3 df cfg).rows.length := p4r
      _ = (stage2 df cfg).rows.length := p3r
      _ ≤ (stage1 df cfg).rows.length := p2r
      _ = df.rows.length := by rw [p1r]
  · rw [p5c, p4c, p3c, p2c, p1c]
  · intro hd ho
    calc (stage5 df cfg).rows.length
        = (stage4 df cfg).rows.length := p5req ho
      _ = (stage3 df cfg).rows.length := p4r
      _ = (stage2 df cfg).rows.length := p3r
      _ = (stage1 df cfg).rows.length := p2req hd
      _ = df.rows.length := by rw [p1r]

/-- C1 witness: the contract evaluated on a concrete table, under the
default configuration and under one with every row-dropping step off. -/
theorem clean_data_shape_contract_witness :
    (dfC1.empty = false ∧
      ∃ out, cleanData dfC1 {} = .ok out ∧
        out.rows.length ≤ dfC1.rows.length ∧
        out.cols = (if ({} : CleanConfig).clean_columns then
          dfC1.cols.map normalizeName else dfC1.cols) ∧
        (({} : CleanConfig).handle_duplicates = false →
          ({} : CleanConfig).remove_outliers = false →
          out.rows.length = dfC1.rows.length)) ∧
    (∃ out, cleanData dfC1 { handle_duplicates := false } = .ok out ∧
        out.rows.length ≤ dfC1.rows.length ∧
        out.cols = (if ({ handle_duplicates := false } : CleanConfig).clean_columns
          then dfC1.cols.map normalizeName else dfC1.cols) ∧
        (({ handle_duplicates := false } : CleanConfig).handle_duplicates = false →
          ({ handle_duplicates := false } : CleanConfig).remove_outliers = false →
          out.rows.length = dfC1.rows.length)) :=
  ⟨⟨rfl, clean_data_shape_contract dfC1 {} rfl⟩,
    clean_data_shape_contract dfC1 { handle_duplicates := false } rfl⟩

/-! ## C4: every retained row is within the IQR bounds of its step -/

lemma iqrStep_rows_subset (t : ℚ) (d : Frame) (i : Nat) :
    ∀ r, r ∈ (iqrStep t d i).rows → r ∈ d.rows := by
  intro r hr
  rcases hb : iqrBounds (d.colValues i) t with _ | ⟨lb, ub⟩
  · have hstep : iqrStep t d i = d := by
      rw [iqrStep_eq, hb]
    rwa [hstep] at hr
  · have hstep : iqrStep t d i =
        if (d.rows.filter (fun r2 => iqrMask lb ub (cellAt r2 i))).length > 0 then
          { d with rows := d.rows.filter (fun r2 => ¬ iqrMask lb ub (cellAt r2 i)) }
        else d := by
      rw [iqrStep_eq, hb]
    rw [hstep] at hr
    by_cases hc : (d.rows.filter (fun r2 => iqrMask lb ub (cellAt r2 i))).length > 0
    · rw [if_pos hc] at hr
      exact List.mem_of_mem_filter hr
    · rwa [if_neg hc] at hr

lemma foldl_iqr_rows_subset (t : ℚ) :
    ∀ (l : List Nat) (d : Frame) (r : List Value),
      r ∈ (l.foldl (iqrStep t) d).rows → r ∈ d.rows := by
  intro l
  induction l with
  | nil => exact fun d r hr => hr
  | cons i rest ih =>
      intro d r hr
      rw [List.foldl_cons] at hr
      exact iqrStep_rows_subset t d i r (ih (iqrStep t d i) r hr)

/-- A row surviving a column's iqr test is not flagged by its mask. -/
lemma iqrStep_mask_false (t : ℚ) (d : Frame) (i : Nat) (lb ub : ℚ)
    (hb : iqrBounds (d.colValues i) t = some (lb, ub))
    (r : List Value) (hr : r ∈ (iqrStep t d i).rows) :
    iqrMask lb ub (cellAt r i) = false := by
  have hstep : iqrStep t d i =
      if (d.rows.filter (fun r2 => iqrMask lb ub (cellAt r2 i))).length > 0 then
        { d with rows := d.rows.filter (fun r2 => ¬ iqrMask lb ub (cellAt r2 i)) }
      else d := by
    rw [iqrStep_eq, hb]
  rw [hstep] at hr
  by_cases hc : (d.rows.filter (fun r2 => iqrMask lb ub (cellAt r2 i))).length > 0
  · rw [if_pos hc] at hr
    have := (List.mem_filter.mp hr).2
    simpa using this
  · rw [if_neg hc] at hr
    push_neg at hc
    have hnil : d.rows.filter (fun r2 => iqrMask lb ub (cellAt r2 i)) = [] :=
      List.eq_nil_of_length_eq_zero (by omega)
    by_contra hmask
    have hmem : r ∈ d.rows.filter (fun r2 => iqrMask lb ub (cellAt r2 i)) :=
      List.mem_filter.mpr ⟨hr, by simpa using hmask⟩
    rw [hnil] at hmem
    cases hmem

/-- Over the whole loop: a finally-retained row passes every column's test
as taken at that column's moment. -/
lemma foldl_iqr_scan (t : ℚ) :
    ∀ (l : List Nat) (d : Frame) (r : List Value),
      r ∈ (l.foldl (iqrStep t) d).rows →
      ∀ p ∈ iqrScan t d l, ∀ lb ub,
        iqrBounds (p.2.colValues p.1) t = some (lb, ub) →
        iqrMask lb ub (cellAt r p.1) = false := by
  intro l
  induction l with
  | nil =>
      intro d r _ p hp
      cases hp
  | cons i rest ih =>
      intro d r hr p hp lb ub hb
      rw [List.foldl_cons] at hr
      rcases List.mem_cons.mp hp with hphead | hptail
      · subst hphead
        exact iqrStep_mask_false t d i lb ub hb r
          (foldl_iqr_rows_subset t rest (iqrStep t d i) r hr)
      · exact ih (iqrStep t d i) r hr p hptail lb ub hb

/-- C4 theorem: after IQR outlier removal at threshold t, every retained
row satisfies, for each numeric column, lb ≤ value ≤ ub where [lb, ub] are
the bounds Q1 − t·IQR, Q3 + t·IQR computed from the table state at the
moment that column's test was applied (removal being column-by-column and
cumulative). -/
theorem iqr_retained_rows_within_bounds (df : Frame) (t : ℚ) (r : List Value)
    (hr : r ∈ (handleOutliers df .iqr t).rows)
    (i : Nat) (s : Frame) (hs : (i, s) ∈ iqrScan t df (numericIdx df))
    (lb ub : ℚ) (hb : iqrBounds (s.colValues i) t = some (lb, ub))
    (q : ℚ) (hq : (cellAt r i).toQ = some q) :
    lb ≤ q ∧ q ≤ ub := by
  have hr2 : r ∈ ((numericIdx df).foldl (iqrStep t) df).rows := hr
  have hmask := foldl_iqr_scan t (numericIdx df) df r hr2 (i, s) hs lb ub hb
  unfold iqrMask at hmask
  rw [hq] at hmask
  simp only [Bool.or_eq_false_iff, decide_eq_false_iff_not, not_lt] at hmask
  exact ⟨hmask.1, hmask.2⟩

/-- C4 witness: with threshold 3/2 the bounds are [−73/2, 131/2], the row
[1] is retained and within them (100 is dropped). -/
theorem iqr_retained_rows_within_bounds_witness :
    ([Value.vInt 1] ∈ (handleOutliers dfC4 .iqr (3 / 2)).rows ∧
      (0, dfC4) ∈ iqrScan (3 / 2) dfC4 (numericIdx dfC4) ∧
      iqrBounds (dfC4.colValues 0) (3 / 2) = some (-73 / 2, 131 / 2) ∧
      (cellAt [Value.vInt 1] 0).toQ = some 1) ∧
    (-73 / 2 ≤ (1 : ℚ) ∧ (1 : ℚ) ≤ 131 / 2) :=
  ⟨⟨by decide, by decide, by decide, by decide⟩,
    iqr_retained_rows_within_bounds dfC4 (3 / 2) [Value.vInt 1] (by decide) 0 dfC4
      (by decide) (-73 / 2) (131 / 2) (by decide) 1 (by decide)⟩

/-! ## C6: the caller's frame is never written through -/

lemma pairPres_trans {h0 : Heap} {p q : Heap × Nat}
    (h1 : PairPres h0 p) (h2 : PairPres p.1 q) : PairPres h0 q :=
  ⟨le_trans h1.1 h2.1,
    fun rp hrp => (h2.2 rp (lt_of_lt_of_le hrp h1.1)).trans (h1.2 rp hrp)⟩

lemma pairPres_self (h0 : Heap) (r : Nat) : PairPres h0 (h0, r) :=
  ⟨le_refl _, fun _ _ => rfl⟩

lemma pairPres_alloc (h0 : Heap) (d : Frame) : PairPres h0 (alloc h0 d) :=
  ⟨by simp [alloc], fun rp hrp => List.getElem?_append_left hrp⟩

/-- An in-place write at the freshly allocated slot touches no older
reference. -/
lemma foldl_write_at (r1 : Nat) (g : Heap → Nat → Frame) :
    ∀ (l : List Nat) (hh : Heap),
      (l.foldl (fun hAcc i => writeh hAcc r1 (g hAcc i)) hh).length = hh.length ∧
      ∀ rp, rp ≠ r1 →
        (l.foldl (fun hAcc i => writeh hAcc r1 (g hAcc i)) hh)[rp]? = hh[rp]? := by
  intro l
  induction l with
  | nil => exact fun hh => ⟨rfl, fun _ _ => rfl⟩
  | cons i rest ih =>
      intro hh
      have h2 := ih (writeh hh r1 (g hh i))
      refine ⟨h2.1.trans (by simp [writeh]), fun rp hrp => ?_⟩
      rw [List.foldl_cons, h2.2 rp hrp]
      exact List.getElem?_set_ne (Ne.symm hrp)

lemma cleanColumnNamesH_pres : HPres cleanColumnNamesH := by
  intro h r
  have he : cleanColumnNamesH h r =
      (writeh (h ++ [geth h r]) h.length
        (cleanColumnNames (geth (h ++ [geth h r]) h.length)), h.length) := rfl
  rw [he]
  refine ⟨by simp [writeh], fun rp hrp => ?_⟩
  show ((h ++ [geth h r]).set h.length _)[rp]? = h[rp]?
  rw [List.getElem?_set_ne (by omega)]
  exact List.getElem?_append_left hrp

lemma handleDuplicatesH_pres : HPres handleDuplicatesH := by
  intro h r
  exact pairPres_alloc h _

lemma handleMissingValuesH_pres : HPres handleMissingValuesH := by
  intro h r
  have he : handleMissingValuesH h r =
      ((missingIdx (geth (h ++ [geth h r]) h.length)).foldl
        (fun hAcc i => writeh hAcc h.length (fillColumnStep (geth hAcc h.length) i))
        (h ++ [geth h r]), h.length) := rfl
  rw [he]
  have hf := foldl_write_at h.length
    (fun hAcc i => fillColumnStep (geth hAcc h.length) i)
    (missingIdx (geth (h ++ [geth h r]) h.length)) (h ++ [geth h r])
  refine ⟨by rw [hf.1]; simp, fun rp hrp => ?_⟩
  rw [hf.2 rp (by omega)]
  exact List.getElem?_append_left hrp

lemma optimizeDataTypesH_pres : HPres optimizeDataTypesH := by
  intro h r
  have he : optimizeDataTypesH h r =
      ((objectSel (geth ((numericSel (geth (h ++ [geth h r]) h.length)).foldl
          (fun hAcc i => writeh hAcc h.length
            (optimizeNumericStep (geth hAcc h.length) i)) (h ++ [geth h r]))
          h.length)).foldl
        (fun hAcc i => writeh hAcc h.length
          (optimizeObjectStep (geth hAcc h.length) i))
        ((numericSel (geth (h ++ [geth h r]) h.length)).foldl
          (fun hAcc i => writeh hAcc h.length
            (optimizeNumericStep (geth hAcc h.length) i)) (h ++ [geth h r])),
        h.length) := rfl
  rw [he]
  have hf1 := foldl_write_at h.length
    (fun hAcc i => optimizeNumericStep (geth hAcc h.length) i)
    (numericSel (geth (h ++ [geth h r]) h.length)) (h ++ [geth h r])
  have hf2 := foldl_write_at h.length
    (fun hAcc i => optimizeObjectStep (geth hAcc h.length) i)
    (objectSel (geth ((numericSel (geth (h ++ [geth h r]) h.length)).foldl
      (fun hAcc i => writeh hAcc h.length
        (optimizeNumericStep (geth hAcc h.length) i)) (h ++ [geth h r])) h.length))
    ((numericSel (geth (h ++ [geth h r]) h.length)).foldl
      (fun hAcc i => writeh hAcc h.length
        (optimizeNumericStep (geth hAcc h.length) i)) (h ++ [geth h r]))
  refine ⟨by rw [hf2.1, hf1.1]; simp, fun rp hrp => ?_⟩
  rw [hf2.2 rp (by omega), hf1.2 rp (by omega)]
  exact List.getElem?_append_left hrp

lemma foldl_pair_pres (step : (Heap × Nat) → Nat → (Heap × Nat))
    (hstep : ∀ q i, step q i = q ∨ ∃ d, (step q i).1 = q.1 ++ [d]) :
    ∀ (l : List Nat) (q : Heap × Nat), PairPres q.1 (l.foldl step q) := by
  intro l
  induction l with
  | nil => exact fun q => ⟨le_refl _, fun _ _ => rfl⟩
  | cons i rest ih =>
      intro q
      rw [List.foldl_cons]
      rcases hstep q i with he | ⟨d, he⟩
      · rw [he]
        exact ih q
      · refine pairPres_trans ?_ (ih (step q i))
        exact ⟨by rw [he]; simp, fun rp hrp => by
          rw [he]
          exact List.getElem?_append_left hrp⟩

lemma handleOutliersH_pres (m : OutlierMethod) (t : ℚ) :
    HPres (fun h r => handleOutliersH h r m t) := by
  intro h r
  show PairPres h (handleOutliersH h r m t)
  cases m with
  | iqr =>
      have he : handleOutliersH h r .iqr t =
          (numericIdx (geth (h ++ [geth h r]) h.length)).foldl
            (fun q i => if iqrStep t (geth q.1 q.2) i = geth q.1 q.2 then q
              else alloc q.1 (iqrStep t (geth q.1 q.2) i))
            (h ++ [geth h r], h.length) := rfl
      rw [he]
      refine pairPres_trans (pairPres_alloc h (geth h r)) ?_
      exact foldl_pair_pres _
        (fun q i => by
          by_cases hc : iqrStep t (geth q.1 q.2) i = geth q.1 q.2
          · exact Or.inl (by rw [if_pos hc])
          · exact Or.inr ⟨iqrStep t (geth q.1 q.2) i, by rw [if_neg hc]; rfl⟩)
        (numericIdx (geth (h ++ [geth h r]) h.length)) (h ++ [geth h r], h.length)
  | zscore =>
      have he : handleOutliersH h r .zscore t =
          (numericIdx (geth (h ++ [geth h r]) h.length)).foldl
            (fun q i => if zscoreStep t (geth q.1 q.2) i = geth q.1 q.2 then q
              else alloc q.1 (zscoreStep t (geth q.1 q.2) i))
            (h ++ [geth h r], h.length) := rfl
      rw [he]
      refine pairPres_trans (pairPres_alloc h (geth h r)) ?_
      exact foldl_pair_pres _
        (fun q i => by
          by_cases hc : zscoreStep t (geth q.1 q.2) i = geth q.1 q.2
          · exact Or.inl (by rw [if_pos hc])
          · exact Or.inr ⟨zscoreStep t (geth q.1 q.2) i, by rw [if_neg hc]; rfl⟩)
        (numericIdx (geth (h ++ [geth h r]) h.length)) (h ++ [geth h r], h.length)
  | otherMethod => exact pairPres_alloc h _

/-- The non-raising branch of the heap-level clean_data is the staged
pipeline. -/
lemma cleanDataH_eq (cfg : CleanConfig) (h : Heap) (r : Nat)
    (hne : (geth h r).empty = false) :
    cleanDataH cfg h r = ((hstage5 cfg h r).1, some (hstage5 cfg h r).2) := by
  unfold cleanDataH hstage5 hstage4 hstage3 hstage2 hstage1 hstage0
  rw [hne]
  simp

/-- C6 theorem: clean_data never mutates the caller's dataframe — after
the call (raising or not), the frame reachable through the argument
reference is unchanged. -/
theorem clean_data_input_unchanged (h : Heap) (r : Nat) (cfg : CleanConfig)
    (hr : r < h.length) :
    ((cleanDataH cfg h r).1)[r]? = h[r]? := by
  by_cases hne : (geth h r).empty = true
  · unfold cleanDataH
    rw [hne]
    simp
  · rw [cleanDataH_eq cfg h r (Bool.not_eq_true _ ▸ hne)]
    have p1 : PairPres (hstage0 h r).1 (hstage1 cfg h r) := by
      unfold hstage1
      cases cfg.clean_columns
      · simp only [Bool.false_eq_true, if_false]
        exact pairPres_self _ _
      · simp only [if_true]
        exact cleanColumnNamesH_pres _ _
    have p2 : PairPres (hstage1 cfg h r).1 (hstage2 cfg h r) := by
      unfold hstage2
      cases cfg.handle_duplicates
      · simp only [Bool.false_eq_true, if_false]
        exact pairPres_self _ _
      · simp only [if_true]
        exact handleDuplicatesH_pres _ _
    have p3 : PairPres (hstage2 cfg h r).1 (hstage3 cfg h r) := by
      unfold hstage3
      cases cfg.handle_missing
      · simp only [Bool.false_eq_true, if_false]
        exact pairPres_self _ _
      · simp only [if_true]
        exact handleMissingValuesH_pres _ _
    have p4 : PairPres (hstage3 cfg h r).1 (hstage4 cfg h r) := by
      unfold hstage4
      cases cfg.optimize_types
      · simp only [Bool.false_eq_true, if_false]
        exact pairPres_self _ _
      · simp only [if_true]
        exact optimizeDataTypesH_pres _ _
    have p5 : PairPres (hstage4 cfg h r).1 (hstage5 cfg h r) := by
      unfold hstage5
      cases cfg.remove_outliers
      · simp only [Bool.false_eq_true, if_false]
        exact pairPres_self _ _
      · simp only [if_true]
        exact handleOutliersH_pres cfg.outlier_method cfg.outlier_threshold _ _
    have pall : PairPres h (hstage5 cfg h r) :=
      pairPres_trans (pairPres_alloc h (geth h r))
        (pairPres_trans p1 (pairPres_trans p2 (pairPres_trans p3
          (pairPres_trans p4 p5))))
    exact pall.2 r hr

/-- C6 witness: a singleton heap holding a concrete frame; the reference
still reads the original frame after cleaning. -/
theorem clean_data_input_unchanged_witness :
    0 < ([dfC1] : Heap).length ∧
      ((cleanDataH {} [dfC1] 0).1)[0]? = ([dfC1] : Heap)[0]? :=
  ⟨by decide, clean_data_input_unchanged [dfC1] 0 {} (by decide)⟩

end Dashboard
